import Mathlib

/-!
simple-tiles: map, rule and style pipeline.

A shallow embedding of `src/map.c`, `src/rule.c`, `src/style.c` and
`src/raster_layer.c`.

Conventions of the embedding:

* C `double` values are exact rationals (`ℚ`); rounding is not modelled.
* `unsigned int` values are natural numbers below `2 ^ 32`; unsigned
  arithmetic wraps modulo `2 ^ 32`.
* A nullable pointer is an `Option`.
* Calls into cairo are recorded as a trace of `cairo_cmd` values instead of
  being rasterised.
* Results of calls into OGR, cairo and the allocator are read from an
  environment record, so every outcome the C code branches on is reachable.
-/

namespace SimpleTiles

/-! ## Status codes and the map record -/

/-- The enumerators of `simplet_status_t` used by the sources. -/
inductive simplet_status_t where
  | SIMPLET_ERR
  | SIMPLET_OOM
  | SIMPLET_CAIRO_ERR
  | SIMPLET_OGR_ERR
  | SIMPLET_GDAL_ERR
  | SIMPLET_OK
deriving DecidableEq, Repr

open simplet_status_t

/-- A coordinate pair (`simplet_point_t`). -/
structure simplet_point_t where
  x : ℚ
  y : ℚ
deriving DecidableEq

/-- Modelled from the spec: the bounds object of bounds.c, which is not among
the sources. A bounds value has a northwest and a southeast corner once it
has been extended; `fresh` is the value `simplet_bounds_new` returns, which
encloses no point yet. -/
inductive simplet_bounds_t where
  | fresh
  | rect (nw se : simplet_point_t)
deriving DecidableEq

/-- Modelled from the spec: `simplet_bounds_extend` of bounds.c, which is not
among the sources: extending a bounds with a point grows the enclosing
rectangle to cover it and never shrinks it. -/
def simplet_bounds_extend (b : simplet_bounds_t) (x y : ℚ) : simplet_bounds_t :=
  match b with
  | .fresh => .rect ⟨x, y⟩ ⟨x, y⟩
  | .rect nw se => .rect ⟨min nw.x x, max nw.y y⟩ ⟨max se.x x, min se.y y⟩

/-- The `error` member of the map: a status and a message
(`simplet_set_error` overwrites both). -/
structure simplet_error_t where
  status : simplet_status_t
  msg : String
deriving DecidableEq

/-- A spatial reference handle: `none` inside is a reference that has been
allocated but not initialised from a definition string. -/
structure OGRSpatialReferenceH where
  definition : Option String
deriving DecidableEq

/-- The part of a cairo context the sources read: the two distance
conversions of the current transformation. -/
structure cairo_t where
  user_to_device_distance : ℚ × ℚ → ℚ × ℚ
  device_to_user_distance : ℚ × ℚ → ℚ × ℚ

/-- An image surface handle, remembering the size it was created with. -/
structure cairo_surface_t where
  width : Int
  height : Int
deriving DecidableEq

/-- The drawing verbs of style.c that the style table refers to. -/
inductive style_verb where
  | fill
  | stroke
  | weight
  | line_cap
  | letter_spacing
  | simplet_style_paint
  | simplet_style_line_join
deriving DecidableEq, Repr

/-- One call made on the cairo context. The angles of `arc` are in units of
`M_PI`; `style_call v arg` is the call `def->call(ct, arg)` of a style verb. -/
inductive cairo_cmd where
  | save
  | restore
  | move_to (x y : ℚ)
  | new_path
  | line_to (x y : ℚ)
  | arc (xc yc radius angle1 angle2 : ℚ)
  | close_path
  | clip
  | style_call (verb : style_verb) (arg : String)
deriving DecidableEq

/-- The geometry types `dispatch` distinguishes; every other value of
`OGRwkbGeometryType` is `other` with its numeric code. -/
inductive OGRwkbGeometryType where
  | wkbPoint
  | wkbLineString
  | wkbPolygon
  | wkbMultiPoint
  | wkbMultiLineString
  | wkbMultiPolygon
  | wkbGeometryCollection
  | other (code : Nat)
deriving DecidableEq

mutual
/-- An OGR geometry as the sources see it: its type, the vertices
`OGR_G_GetPoint` gives, and its child geometries. -/
inductive OGRGeometryH where
  | mk (type : OGRwkbGeometryType) (points : List simplet_point_t) (children : OGRGeometryRefs)
/-- The children of a geometry in index order; `null` is an index at which
`OGR_G_GetGeometryRef` returns `NULL`. -/
inductive OGRGeometryRefs where
  | nil
  | null (rest : OGRGeometryRefs)
  | ref (geom : OGRGeometryH) (rest : OGRGeometryRefs)
end

/-- A style: a key and an argument string. -/
structure simplet_style_t where
  key : String
  arg : String
deriving DecidableEq, Repr

/-- A rule: an OGR SQL query and its styles in insertion order. -/
structure simplet_rule_t where
  ogrsql : String
  styles : List simplet_style_t
deriving DecidableEq

/-- A vector layer: its data source and its rules in insertion order. -/
structure simplet_layer_t where
  source : String
  rules : List simplet_rule_t
deriving DecidableEq

/-- Modelled from the spec: the map record, whose declaration (types.h) is
not among the sources; the spec gives `width: int, height: int`, which is
also the type `simplet_map_set_size` receives. -/
structure simplet_map_t where
  bounds : Option simplet_bounds_t
  layers : List simplet_layer_t
  proj : Option OGRSpatialReferenceH
  _ctx : Option cairo_t
  error : simplet_error_t
  width : Int
  height : Int
  valid : simplet_status_t

/-- The outcomes of the external calls the map functions branch on. -/
structure Env where
  /-- The projection string the macro `SIMPLET_MERCATOR` expands to. -/
  SIMPLET_MERCATOR : String
  /-- Whether `OSRNewSpatialReference(NULL)` returns a handle. -/
  OSRNewSpatialReference : Bool
  /-- Whether `OSRSetFromUserInput` accepts the string (`OGRERR_NONE`). -/
  OSRSetFromUserInput : String → Bool
  /-- Whether `simplet_bounds_new` returns an object. -/
  simplet_bounds_new : Bool
  /-- Whether `cairo_image_surface_create` gives a surface whose status is
  `CAIRO_STATUS_SUCCESS` for this width and height. -/
  cairo_image_surface_create : Int → Int → Bool
  /-- The context `cairo_create` returns for the surface. -/
  cairo_create : cairo_surface_t → cairo_t
  /-- The status `simplet_layer_process` (layer.c) returns for a layer. -/
  simplet_layer_process : simplet_layer_t → simplet_map_t → simplet_status_t
  /-- The value `strtod(arg, NULL)` parses from a string. -/
  strtod : String → ℚ
  /-- Whether `simplet_bounds_to_ogr` returns a geometry. -/
  simplet_bounds_to_ogr : simplet_bounds_t → Option OGRSpatialReferenceH → Bool
  /-- The result set of `OGR_DS_ExecuteSQL` for a source, a query and the
  bounds used as spatial filter: `none` when there is no result set, else the
  features in order, each with its geometry reference (`none` for `NULL`). -/
  OGR_DS_ExecuteSQL : String → String → simplet_bounds_t → Option (List (Option OGRGeometryH))

/-- The map `simplet_map_new` returns. -/
def simplet_map_new : simplet_map_t :=
  { bounds := none, layers := [], proj := none, _ctx := none,
    error := ⟨SIMPLET_OK, ""⟩, height := 0, width := 0, valid := SIMPLET_OK }

/-- `simplet_map_error`: record the error and make it the valid status;
returns the status. -/
def simplet_map_error (map : simplet_map_t) (err : simplet_status_t) (msg : String) :
    simplet_map_t × simplet_status_t :=
  ({ map with error := ⟨err, msg⟩, valid := err }, err)

/-- `simplet_map_set_srs`. -/
def simplet_map_set_srs (env : Env) (map : simplet_map_t) (proj : String) :
    simplet_map_t × simplet_status_t :=
  if env.OSRNewSpatialReference then
    let map1 := { map with proj := some ⟨none⟩ }
    if env.OSRSetFromUserInput proj then
      ({ map1 with proj := some ⟨some proj⟩ }, SIMPLET_OK)
    else
      simplet_map_error map1 SIMPLET_OGR_ERR "bad projection string"
  else
    simplet_map_error { map with proj := none } SIMPLET_OGR_ERR "could not assign spatial ref"

/-- `simplet_map_set_size`. -/
def simplet_map_set_size (map : simplet_map_t) (width height : Int) :
    simplet_map_t × simplet_status_t :=
  ({ map with height := height, width := width }, SIMPLET_OK)

/-- `simplet_map_set_bounds`. -/
def simplet_map_set_bounds (env : Env) (map : simplet_map_t) (maxx maxy minx miny : ℚ) :
    simplet_map_t × simplet_status_t :=
  if env.simplet_bounds_new then
    let b := simplet_bounds_extend (simplet_bounds_extend .fresh maxx maxy) minx miny
    ({ map with bounds := some b }, SIMPLET_OK)
  else
    simplet_map_error { map with bounds := none } SIMPLET_OOM "couldn't create bounds"

/-- `SIMPLET_SLIPPY_SIZE`. -/
def SIMPLET_SLIPPY_SIZE : Int := 256

/-- `SIMPLET_MERC_LENGTH`, 40075016.68. -/
def SIMPLET_MERC_LENGTH : ℚ := 4007501668 / 100

/-- Addition of two `unsigned int` values. -/
def uint_add (a b : Nat) : Nat := (a + b) % 2 ^ 32

/-- `simplet_map_set_slippy`. The parameter `code` is the integer value of
each enumerator of `simplet_status_t` (types.h is not among the sources):
the C test `!status` holds exactly when that value is zero. -/
def simplet_map_set_slippy (code : simplet_status_t → Nat) (env : Env)
    (map : simplet_map_t) (x y z : Nat) : simplet_map_t × simplet_status_t :=
  let map1 := (simplet_map_set_size map SIMPLET_SLIPPY_SIZE SIMPLET_SLIPPY_SIZE).1
  let r2 := simplet_map_set_srs env map1 env.SIMPLET_MERCATOR
  if code r2.2 = 0 then
    simplet_map_error r2.1 SIMPLET_OGR_ERR "couldn't set slippy projection"
  else
    let zfactor : ℚ := 2 ^ z
    let length : ℚ := SIMPLET_MERC_LENGTH / zfactor
    let origin : ℚ := SIMPLET_MERC_LENGTH / 2
    let r3 := simplet_map_set_bounds env r2.1
      ((uint_add x 1 : ℕ) * length - origin)
      (origin - (uint_add y 1 : ℕ) * length)
      ((x : ℕ) * length - origin)
      (origin - (y : ℕ) * length)
    if code r3.2 = 0 then
      simplet_map_error r3.1 SIMPLET_OOM "out of memory setting bounds"
    else
      (r3.1, SIMPLET_OK)

/-- `simplet_map_get_status`. -/
def simplet_map_get_status (map : simplet_map_t) : simplet_status_t :=
  map.error.status

/-- `simplet_map_is_valid`. The last test, `!map->layers->tail`, holds
exactly when the layer list is empty. -/
def simplet_map_is_valid (map : simplet_map_t) : simplet_status_t :=
  if map.valid ≠ SIMPLET_OK then SIMPLET_ERR
  else if map.bounds.isNone then SIMPLET_ERR
  else if map.proj.isNone then SIMPLET_ERR
  else if map.height = 0 then SIMPLET_ERR
  else if map.width = 0 then SIMPLET_ERR
  else if map.layers.isEmpty then SIMPLET_ERR
  else SIMPLET_OK

/-- The layer loop of `simplet_map_build_surface`: the layers processed, in
order, and the map after the loop. -/
def build_surface_loop (env : Env) (map : simplet_map_t) :
    List simplet_layer_t → List simplet_layer_t × simplet_map_t
  | [] => ([], map)
  | layer :: rest =>
    let err := env.simplet_layer_process layer map
    if err ≠ SIMPLET_OK then
      ([layer], (simplet_map_error map err "error in rendering").1)
    else
      let r := build_surface_loop env map rest
      (layer :: r.1, r.2)

/-- `simplet_map_build_surface`: the surface returned (`none` for `NULL`),
the layers handed to `simplet_layer_process`, in order, and the map
afterwards. -/
def simplet_map_build_surface (env : Env) (map : simplet_map_t) :
    Option cairo_surface_t × List simplet_layer_t × simplet_map_t :=
  if simplet_map_is_valid map = SIMPLET_ERR then (none, [], map)
  else if ¬ env.cairo_image_surface_create map.width map.height then (none, [], map)
  else
    let surface : cairo_surface_t := ⟨map.width, map.height⟩
    let map1 := { map with _ctx := some (env.cairo_create surface) }
    let r := build_surface_loop env map1 map1.layers
    (some surface, r.1, r.2)

/-! ## style.c -/

/-- An entry of the style table: a key and the verb it calls. -/
structure simplet_styledef_t where
  key : String
  call : style_verb
deriving DecidableEq, Repr

/-- The table `styleTable`. -/
def styleTable : List simplet_styledef_t :=
  [ ⟨"fill", .fill⟩,
    ⟨"stroke", .stroke⟩,
    ⟨"weight", .weight⟩,
    ⟨"line-cap", .line_cap⟩,
    ⟨"color", .fill⟩,
    ⟨"text-outline-color", .stroke⟩,
    ⟨"text-outline-weight", .weight⟩,
    ⟨"letter-spacing", .letter_spacing⟩,
    ⟨"paint", .simplet_style_paint⟩,
    ⟨"line-join", .simplet_style_line_join⟩ ]

/-- The scan of `lookup_styledef` over the entries from some index on. -/
def lookup_styledef_from (key : String) : List simplet_styledef_t → Option simplet_styledef_t
  | [] => none
  | d :: rest => if key = d.key then some d else lookup_styledef_from key rest

/-- `lookup_styledef`: the first table entry whose key is `key`. -/
def lookup_styledef (key : String) : Option simplet_styledef_t :=
  lookup_styledef_from key styleTable

/-- Modelled from the spec: `simplet_get_list_iter` of the list container
(list.c), which is not among the sources and which the spec describes as a
standard ordered list: an iterator over the items in insertion order. -/
def simplet_get_list_iter {α : Type} (list : List α) : Option (List α) :=
  some list

/-- Modelled from the spec: `simplet_list_push` of the list container
(list.c), which is not among the sources: the item is appended at the tail. -/
def simplet_list_push {α : Type} (list : List α) (item : α) : Option (List α) :=
  some (list ++ [item])

/-- The `while` loop of `simplet_lookup_style` over the items the iterator
still has to yield. -/
def lookup_style_loop (key : String) : List simplet_style_t → Option simplet_style_t
  | [] => none
  | style :: rest => if key = style.key then some style else lookup_style_loop key rest

/-- `simplet_lookup_style`: `none` is `NULL`. -/
def simplet_lookup_style (styles : List simplet_style_t) (key : String) :
    Option simplet_style_t :=
  match simplet_get_list_iter styles with
  | none => none
  | some iter => lookup_style_loop key iter

/-- `simplet_apply_styles`: the verb calls made on the context for the
caller's keys (the variadic arguments before the terminating `NULL`). -/
def simplet_apply_styles (styles : List simplet_style_t) : List String → List cairo_cmd
  | [] => []
  | key :: rest =>
    match lookup_styledef key with
    | none => simplet_apply_styles styles rest
    | some d =>
      match simplet_lookup_style styles key with
      | none => simplet_apply_styles styles rest
      | some style => .style_call d.call style.arg :: simplet_apply_styles styles rest

/-- `simplet_style_new`, with `malloc` and the two `simplet_copy_string`
calls (util.c, not among the sources) giving their object. -/
def simplet_style_new (key arg : String) : Option simplet_style_t :=
  some ⟨key, arg⟩

/-! ## rule.c -/

/-- `simplet_rule_new`. -/
def simplet_rule_new (sqlquery : String) : simplet_rule_t :=
  ⟨sqlquery, []⟩

/-- `simplet_rule_add_style`: the rule afterwards and the style returned. -/
def simplet_rule_add_style (rule : simplet_rule_t) (key arg : String) :
    simplet_rule_t × Option simplet_style_t :=
  match simplet_style_new key arg with
  | none => (rule, none)
  | some style =>
    match simplet_list_push rule.styles style with
    | none => (rule, none)
    | some styles => ({ rule with styles := styles }, some style)

/-- A sequence of `simplet_rule_add_style` calls, in order. -/
def add_styles (rule : simplet_rule_t) : List (String × String) → simplet_rule_t
  | [] => rule
  | kv :: rest => add_styles (simplet_rule_add_style rule kv.1 kv.2).1 rest

/-- The number of child references, `NULL` ones included. -/
def OGRGeometryRefs.count : OGRGeometryRefs → Nat
  | .nil => 0
  | .null rest => rest.count + 1
  | .ref _ rest => rest.count + 1

/-- `OGR_G_GetGeometryCount`. -/
def OGR_G_GetGeometryCount : OGRGeometryH → Nat
  | .mk _ _ children => children.count

/-- `OGR_G_GetGeometryType`. -/
def OGR_G_GetGeometryType : OGRGeometryH → OGRwkbGeometryType
  | .mk type _ _ => type

/-- The vertices of a geometry, `OGR_G_GetPointCount` of them: the point of
a point geometry, the vertices of a line string or ring, and none for a
polygon, a multi-geometry or a collection, whose parts are children. -/
def OGRGeometryH.points : OGRGeometryH → List simplet_point_t
  | .mk _ points _ => points

/-- `OGR_G_GetPoint`: the vertex at index `i`; OGR gives zero coordinates for
an index outside the vertex range. -/
def OGR_G_GetPoint (points : List simplet_point_t) (i : Int) : simplet_point_t :=
  if 0 ≤ i ∧ i < points.length then points.getD i.toNat ⟨0, 0⟩ else ⟨0, 0⟩

/-- One iteration of the vertex loop of `plot_path` at index `j`: the state
is the anchor `(last_x, last_y)` and the `cairo_line_to` calls made so far. -/
def plot_path_step (ctx : cairo_t) (nw : simplet_point_t) (points : List simplet_point_t)
    (st : simplet_point_t × List cairo_cmd) (j : Nat) : simplet_point_t × List cairo_cmd :=
  let p := OGR_G_GetPoint points j
  let d := ctx.user_to_device_distance (|st.1.x - p.x|, |st.1.y - p.y|)
  if d.1 ≥ 1 / 2 ∨ d.2 ≥ 1 / 2 then
    (p, st.2 ++ [.line_to (p.x - nw.x) (nw.y - p.y)])
  else st

/-- The vertex loop of `plot_path`, `j` from `0` while `j < count - 1`,
started with the first vertex as anchor. -/
def plot_path_loop (ctx : cairo_t) (nw : simplet_point_t) (points : List simplet_point_t) :
    simplet_point_t × List cairo_cmd :=
  (List.range (points.length - 1)).foldl (plot_path_step ctx nw points)
    (OGR_G_GetPoint points 0, [])

/-- The calls of `plot_path` for one sub-path that build its path: from
`cairo_save` to the `cairo_line_to` on the final vertex. -/
def plot_path_build (ctx : cairo_t) (nw : simplet_point_t) (points : List simplet_point_t) :
    List cairo_cmd :=
  let p0 := OGR_G_GetPoint points 0
  let pl := OGR_G_GetPoint points ((points.length : Int) - 1)
  [.save, .move_to (p0.x - nw.x) (nw.y - p0.y), .new_path]
    ++ (plot_path_loop ctx nw points).2
    ++ [.line_to (pl.x - nw.x) (nw.y - pl.y)]

/-- The body of the loop of `plot_path` for one sub-path without children:
`cb` is the trace of the finisher callback. -/
def plot_path_ring (ctx : cairo_t) (nw : simplet_point_t) (rule : simplet_rule_t)
    (cb : simplet_rule_t → List cairo_cmd) (points : List simplet_point_t) : List cairo_cmd :=
  plot_path_build ctx nw points
    ++ simplet_apply_styles rule.styles ["line-join", "line-cap"]
    ++ cb rule
    ++ [.close_path, .clip, .restore]

mutual
/-- `plot_path`; `ctx` is `map->_ctx` and `nw` is `map->bounds->nw`. -/
def plot_path (ctx : cairo_t) (nw : simplet_point_t) (rule : simplet_rule_t)
    (cb : simplet_rule_t → List cairo_cmd) : OGRGeometryH → List cairo_cmd
  | .mk _ _ children => plot_path_refs ctx nw rule cb children
/-- The loop of `plot_path` over the child geometries from some index on. -/
def plot_path_refs (ctx : cairo_t) (nw : simplet_point_t) (rule : simplet_rule_t)
    (cb : simplet_rule_t → List cairo_cmd) : OGRGeometryRefs → List cairo_cmd
  | .nil => []
  | .null rest => plot_path_refs ctx nw rule cb rest
  | .ref subgeom rest =>
    (if OGR_G_GetGeometryCount subgeom > 0 then plot_path ctx nw rule cb subgeom
     else plot_path_ring ctx nw rule cb subgeom.points)
      ++ plot_path_refs ctx nw rule cb rest
end

/-- `plot_point`. -/
def plot_point (strtod : String → ℚ) (ctx : cairo_t) (nw : simplet_point_t)
    (rule : simplet_rule_t) (cb : simplet_rule_t → List cairo_cmd) (geom : OGRGeometryH) :
    List cairo_cmd :=
  match simplet_lookup_style rule.styles "radius" with
  | none => []
  | some style =>
    [.save]
      ++ geom.points.map (fun p =>
          .arc (p.x - nw.x) (nw.y - p.y)
            (ctx.device_to_user_distance (strtod style.arg, 0)).1 0 2)
      ++ simplet_apply_styles rule.styles ["line-join", "line-cap"]
      ++ cb rule
      ++ [.clip, .restore]

/-- `finish_polygon`. -/
def finish_polygon (rule : simplet_rule_t) : List cairo_cmd :=
  .close_path :: simplet_apply_styles rule.styles ["weight", "fill", "stroke"]

/-- `finish_linestring`. -/
def finish_linestring (rule : simplet_rule_t) : List cairo_cmd :=
  simplet_apply_styles rule.styles ["weight", "fill"]

/-- `finish_point`. -/
def finish_point (rule : simplet_rule_t) : List cairo_cmd :=
  .close_path :: simplet_apply_styles rule.styles ["weight", "fill", "stroke"]

mutual
/-- `dispatch`: the calls made on the context for one geometry. -/
def dispatch (strtod : String → ℚ) (ctx : cairo_t) (nw : simplet_point_t)
    (rule : simplet_rule_t) : OGRGeometryH → List cairo_cmd
  | .mk type points children =>
    match type with
    | .wkbPolygon => plot_path ctx nw rule finish_polygon (.mk type points children)
    | .wkbMultiPolygon => plot_path ctx nw rule finish_polygon (.mk type points children)
    | .wkbLineString => plot_path ctx nw rule finish_linestring (.mk type points children)
    | .wkbMultiLineString => plot_path ctx nw rule finish_linestring (.mk type points children)
    | .wkbPoint => plot_point strtod ctx nw rule finish_point (.mk type points children)
    | .wkbMultiPoint => plot_point strtod ctx nw rule finish_point (.mk type points children)
    | .wkbGeometryCollection => dispatch_refs strtod ctx nw rule children
    | .other _ => []
/-- The loop of the collection case of `dispatch` over the children. -/
def dispatch_refs (strtod : String → ℚ) (ctx : cairo_t) (nw : simplet_point_t)
    (rule : simplet_rule_t) : OGRGeometryRefs → List cairo_cmd
  | .nil => []
  | .null rest => dispatch_refs strtod ctx nw rule rest
  | .ref geom rest => dispatch strtod ctx nw rule geom ++ dispatch_refs strtod ctx nw rule rest
end

/-- The feature loop of `simplet_rule_process`: `OGR_L_GetNextFeature` on a
null layer handle yields no feature; a feature without geometry is skipped. -/
def rule_process_loop (strtod : String → ℚ) (ctx : cairo_t) (nw : simplet_point_t)
    (rule : simplet_rule_t) : Option (List (Option OGRGeometryH)) → List cairo_cmd
  | none => []
  | some [] => []
  | some (none :: rest) => rule_process_loop strtod ctx nw rule (some rest)
  | some (some geom :: rest) =>
    dispatch strtod ctx nw rule geom ++ rule_process_loop strtod ctx nw rule (some rest)

/-- `simplet_rule_process`: the value returned and the calls made on the
context. The result is `none` when the function does not return: the map
has no extended bounds to dereference, the assertion on the bounds geometry
fails, or a call is made on a null context. Without a context the function
still returns when the features dispatched make no call; whether a call is
made does not depend on the context, so the test uses a context with the
identity transformation. The test `if(!layer)` is on the layer argument,
which `layer->source` has already dereferenced, so it never holds. -/
def simplet_rule_process (env : Env) (rule : simplet_rule_t) (layer : simplet_layer_t)
    (map : simplet_map_t) : Option (Int × List cairo_cmd) :=
  match map.bounds with
  | some (.rect nw se) =>
    if env.simplet_bounds_to_ogr (.rect nw se) map.proj then
      let olayer := env.OGR_DS_ExecuteSQL layer.source rule.ogrsql (.rect nw se)
      match map._ctx with
      | some ctx => some (1, rule_process_loop env.strtod ctx nw rule olayer)
      | none =>
        if (rule_process_loop env.strtod ⟨id, id⟩ nw rule olayer).isEmpty then some (1, [])
        else none
    else none
  | _ => none

/-! ## The path cairo holds -/

/-- The vertices of the current path of a cairo context after a sequence of
calls, as cairo documents them: `cairo_new_path` clears the path and leaves
no current point, `cairo_move_to` and `cairo_line_to` add their vertex
(`cairo_line_to` without a current point behaves as `cairo_move_to`), and
`cairo_save` keeps the path. Only the calls `plot_path_build` makes are
interpreted. -/
def path_vertices (path : List (ℚ × ℚ)) : List cairo_cmd → List (ℚ × ℚ)
  | [] => path
  | .new_path :: rest => path_vertices [] rest
  | .move_to x y :: rest => path_vertices (path ++ [(x, y)]) rest
  | .line_to x y :: rest => path_vertices (path ++ [(x, y)]) rest
  | _ :: rest => path_vertices path rest

/-- The `cairo_line_to` calls of a trace, in order. -/
def line_tos : List cairo_cmd → List (ℚ × ℚ)
  | [] => []
  | .line_to x y :: rest => (x, y) :: line_tos rest
  | _ :: rest => line_tos rest

/-- The `cairo_arc` calls of a trace, in order. -/
def arcs : List cairo_cmd → List cairo_cmd
  | [] => []
  | .arc xc yc r a1 a2 :: rest => .arc xc yc r a1 a2 :: arcs rest
  | _ :: rest => arcs rest

/-- The distance test of the vertex loop of `plot_path` fails for the vertex
`p` against the anchor `a`: the device-space displacement is below one half
in both axes. -/
def within_threshold (ctx : cairo_t) (a p : simplet_point_t) : Prop :=
  (ctx.user_to_device_distance (|a.x - p.x|, |a.y - p.y|)).1 < 1 / 2 ∧
  (ctx.user_to_device_distance (|a.x - p.x|, |a.y - p.y|)).2 < 1 / 2

/-- The surface-local position of a vertex: `(x - nw.x, nw.y - y)`. -/
def translate (nw p : simplet_point_t) : ℚ × ℚ :=
  (p.x - nw.x, nw.y - p.y)

/-- The body of the vertex loop of `plot_path` as a function of the vertex
read at the index. -/
def plot_vertex_step (ctx : cairo_t) (nw : simplet_point_t)
    (st : simplet_point_t × List cairo_cmd) (p : simplet_point_t) :
    simplet_point_t × List cairo_cmd :=
  let d := ctx.user_to_device_distance (|st.1.x - p.x|, |st.1.y - p.y|)
  if d.1 ≥ 1 / 2 ∨ d.2 ≥ 1 / 2 then
    (p, st.2 ++ [.line_to (p.x - nw.x) (nw.y - p.y)])
  else st

/-! ## Example inputs -/

/-- The enumerator values when `simplet_status_t` is declared in the order
of the inductive type above, `SIMPLET_ERR` being zero. -/
def code_decl : simplet_status_t → Nat
  | SIMPLET_ERR => 0
  | SIMPLET_OOM => 1
  | SIMPLET_CAIRO_ERR => 2
  | SIMPLET_OGR_ERR => 3
  | SIMPLET_GDAL_ERR => 4
  | SIMPLET_OK => 5

/-- A context with the identity transformation. -/
def identity_ctx : cairo_t := ⟨id, id⟩

/-- An environment in which every external call succeeds; an image surface
is created when both sizes are positive and at most 32767, and a query
without text has no result set. -/
def env_ok : Env :=
  { SIMPLET_MERCATOR := "epsg:3857"
    OSRNewSpatialReference := true
    OSRSetFromUserInput := fun _ => true
    simplet_bounds_new := true
    cairo_image_surface_create := fun w h => decide (0 < w ∧ w ≤ 32767 ∧ 0 < h ∧ h ≤ 32767)
    cairo_create := fun _ => identity_ctx
    simplet_layer_process := fun _ _ => SIMPLET_OK
    strtod := fun _ => 0
    simplet_bounds_to_ogr := fun _ _ => true
    OGR_DS_ExecuteSQL := fun _ sql _ => if sql = "" then none else some [] }

/-- A map with bounds, projection and one layer, sized 100 x 100. -/
def map_ready : simplet_map_t :=
  { bounds := some (.rect ⟨0, 100⟩ ⟨100, 0⟩)
    layers := [⟨"roads.shp", []⟩]
    proj := some ⟨some "epsg:3857"⟩
    _ctx := none
    error := ⟨SIMPLET_OK, ""⟩
    width := 100
    height := 100
    valid := SIMPLET_OK }

/-- The map `map_ready` after `simplet_map_set_size(map, -1, -1)`. -/
def map_negative_size : simplet_map_t :=
  (simplet_map_set_size map_ready (-1) (-1)).1

/-- A sub-path of two vertices a quarter of a unit apart. -/
def ring_short : List simplet_point_t := [⟨0, 0⟩, ⟨1 / 4, 0⟩]

/-- A sub-path whose middle vertex is far from the first one. -/
def ring_far : List simplet_point_t := [⟨0, 0⟩, ⟨3, 4⟩, ⟨1, 1⟩]

/-- A rule with a stroke colour and a line join. -/
def rule_stroke : simplet_rule_t :=
  ⟨"SELECT * FROM roads", [⟨"stroke", "#000000ff"⟩, ⟨"line-join", "round"⟩]⟩

/-- A rule with two `radius` styles and a fill. -/
def rule_radius : simplet_rule_t :=
  ⟨"SELECT * FROM towns", [⟨"fill", "#ff0000"⟩, ⟨"radius", "3"⟩, ⟨"radius", "9"⟩]⟩

/-- A point geometry at (10, 20). -/
def geom_point : OGRGeometryH := .mk .wkbPoint [⟨10, 20⟩] .nil

/-- The environment `env_ok`, except that `OSRSetFromUserInput` rejects
every projection string. -/
def env_bad_proj : Env := { env_ok with OSRSetFromUserInput := fun _ => false }

/-- The environment `env_ok`, except that `simplet_bounds_new` returns
`NULL`. -/
def env_no_bounds : Env := { env_ok with simplet_bounds_new := false }

/-- The map `map_ready` during a render, with a context. -/
def map_rendering : simplet_map_t := { map_ready with _ctx := some identity_ctx }

/-- A rule whose query has no text. -/
def rule_no_query : simplet_rule_t := ⟨"", []⟩

/-- The map `map_ready` with a width of 100000 pixels. -/
def map_wide : simplet_map_t := { map_ready with width := 100000 }

/-- An environment like `env_ok` in which the layer `rivers.shp` fails
with an OGR error. -/
def env_rivers_fail : Env :=
  { env_ok with
    simplet_layer_process := fun layer _ =>
      if layer.source = "rivers.shp" then SIMPLET_OGR_ERR else SIMPLET_OK }

/-- A map like `map_ready` with three layers. -/
def map_three_layers : simplet_map_t :=
  { map_ready with layers := [⟨"roads.shp", []⟩, ⟨"rivers.shp", []⟩, ⟨"towns.shp", []⟩] }

/-! ## Rendering and sequences of map operations -/

/-- `simplet_map_close_surface`. -/
def simplet_map_close_surface (map : simplet_map_t) : simplet_map_t :=
  { map with _ctx := none }

/-- `simplet_map_render_to_png`: the map afterwards. `write_ok` says whether
`cairo_surface_write_to_png` returns `CAIRO_STATUS_SUCCESS`, and `msg` is the
text `cairo_status_to_string` gives for the context. -/
def simplet_map_render_to_png (env : Env) (map : simplet_map_t) (_path : String)
    (write_ok : Bool) (msg : String) : simplet_map_t :=
  match simplet_map_build_surface env map with
  | (none, _, map1) => map1
  | (some _, _, map1) =>
    let map2 := if write_ok then map1 else (simplet_map_error map1 SIMPLET_CAIRO_ERR msg).1
    simplet_map_close_surface map2

/-- `simplet_map_render_to_stream`: the map afterwards. `write_ok` says
whether `cairo_surface_write_to_png_stream` returns `CAIRO_STATUS_SUCCESS`
for the callback and stream, and `msg` is the text `cairo_status_to_string`
gives for the context. -/
def simplet_map_render_to_stream (env : Env) (map : simplet_map_t)
    (write_ok : Bool) (msg : String) : simplet_map_t :=
  match simplet_map_build_surface env map with
  | (none, _, map1) => map1
  | (some _, _, map1) =>
    let map2 := if write_ok then map1 else (simplet_map_error map1 SIMPLET_CAIRO_ERR msg).1
    simplet_map_close_surface map2

/-- A call of one of the functions of map.c that take the map. -/
inductive map_op where
  | set_srs (proj : String)
  | set_size (width height : Int)
  | set_bounds (maxx maxy minx miny : ℚ)
  | set_slippy (x y z : Nat)
  | build_surface
  | close_surface
  | render_to_stream (write_ok : Bool) (msg : String)
  | render_to_png (path : String) (write_ok : Bool) (msg : String)

/-- The map after one call, made in the environment `env`. -/
def map_op.run (code : simplet_status_t → Nat) (env : Env) (map : simplet_map_t) :
    map_op → simplet_map_t
  | .set_srs proj => (simplet_map_set_srs env map proj).1
  | .set_size width height => (simplet_map_set_size map width height).1
  | .set_bounds maxx maxy minx miny => (simplet_map_set_bounds env map maxx maxy minx miny).1
  | .set_slippy x y z => (simplet_map_set_slippy code env map x y z).1
  | .build_surface => (simplet_map_build_surface env map).2.2
  | .close_surface => simplet_map_close_surface map
  | .render_to_stream write_ok msg => simplet_map_render_to_stream env map write_ok msg
  | .render_to_png path write_ok msg => simplet_map_render_to_png env map path write_ok msg

/-- The map after a sequence of calls, each made in its own environment. -/
def run_ops (code : simplet_status_t → Nat) (map : simplet_map_t) :
    List (Env × map_op) → simplet_map_t
  | [] => map
  | (env, op) :: rest => run_ops code (op.run code env map) rest

/-- The map `map_ready` after a `simplet_map_set_srs` call whose projection
string OGR rejects. -/
def map_failed_srs : simplet_map_t :=
  (simplet_map_set_srs env_bad_proj map_ready "bogus").1

/-! ## Edges of a bounds, and raster layers -/

/-- The west edge of a bounds: the x of its northwest corner. -/
def simplet_bounds_t.west : simplet_bounds_t → Option ℚ
  | .fresh => none
  | .rect nw _ => some nw.x

/-- The north edge of a bounds: the y of its northwest corner. -/
def simplet_bounds_t.north : simplet_bounds_t → Option ℚ
  | .fresh => none
  | .rect nw _ => some nw.y

/-- The east edge of a bounds: the x of its southeast corner. -/
def simplet_bounds_t.east : simplet_bounds_t → Option ℚ
  | .fresh => none
  | .rect _ se => some se.x

/-- The south edge of a bounds: the y of its southeast corner. -/
def simplet_bounds_t.south : simplet_bounds_t → Option ℚ
  | .fresh => none
  | .rect _ se => some se.y

/-- The bounds a map has after `simplet_map_set_slippy(map, x, y, z)`. -/
def slippy_bounds (code : simplet_status_t → Nat) (env : Env) (map : simplet_map_t)
    (x y z : Nat) : Option simplet_bounds_t :=
  (simplet_map_set_slippy code env map x y z).1.bounds

/-- A raster layer: the members raster_layer.c reads and writes. -/
structure simplet_raster_layer_t where
  source : String
  status : simplet_status_t
  error_msg : Option String
deriving DecidableEq

/-- `simplet_raster_layer_new`, with the allocations giving their object. -/
def simplet_raster_layer_new (datastring : String) : simplet_raster_layer_t :=
  { source := datastring, status := SIMPLET_OK, error_msg := none }

/-- Modelled from the spec: the function `set_error` that the macro
`SIMPLET_ERROR_FUNC` of error.h (not among the sources) defines: it records
the status and the message on the object and returns the status. -/
def set_error (layer : simplet_raster_layer_t) (err : simplet_status_t) (msg : String) :
    simplet_raster_layer_t × simplet_status_t :=
  ({ layer with status := err, error_msg := some msg }, err)

/-- `simplet_raster_layer_process`: the layer afterwards and the status
returned. `GDALOpen` gives, for a source string, `none` when the dataset does
not open and else the number `GDALGetRasterCount` reports for it. The map,
lithograph and context arguments are not read. -/
def simplet_raster_layer_process (GDALOpen : String → Option Int)
    (layer : simplet_raster_layer_t) : simplet_raster_layer_t × simplet_status_t :=
  match GDALOpen layer.source with
  | none => set_error layer SIMPLET_GDAL_ERR "error opening raster source"
  | some count =>
    if count < 4 then set_error layer SIMPLET_GDAL_ERR "raster layer must have 4 bands"
    else (layer, SIMPLET_OK)

/-! ## Sub-paths, reads and save depth -/

/-- The simplification filter in the words of the spec, as a relation
between the anchor before, the candidate vertices, the vertices emitted and
the anchor after: a candidate is emitted, and becomes the anchor, when its
device-space displacement from the anchor is at least one half in either
axis; otherwise it is skipped and the anchor is unchanged. -/
inductive spec_simplify (ctx : cairo_t) :
    simplet_point_t → List simplet_point_t → List simplet_point_t → simplet_point_t → Prop where
  | done (anchor : simplet_point_t) : spec_simplify ctx anchor [] [] anchor
  | emit (anchor p : simplet_point_t) (rest out : List simplet_point_t)
      (final : simplet_point_t) (far : ¬ within_threshold ctx anchor p)
      (more : spec_simplify ctx p rest out final) :
      spec_simplify ctx anchor (p :: rest) (p :: out) final
  | skip (anchor p : simplet_point_t) (rest out : List simplet_point_t)
      (final : simplet_point_t) (near : within_threshold ctx anchor p)
      (more : spec_simplify ctx anchor rest out final) :
      spec_simplify ctx anchor (p :: rest) out final

/-- The `cairo_line_to` call on a vertex. -/
def line_to_vertex (nw p : simplet_point_t) : cairo_cmd :=
  .line_to (p.x - nw.x) (nw.y - p.y)

/-- The children of a geometry as a list, `none` for a `NULL` reference. -/
def OGRGeometryRefs.toList : OGRGeometryRefs → List (Option OGRGeometryH)
  | .nil => []
  | .null rest => none :: rest.toList
  | .ref geom rest => some geom :: rest.toList

/-- The indices `plot_path` passes to `OGR_G_GetPoint` for a sub-path of
`count` vertices, in order: index 0 before the loop, `j` for each iteration
of the loop, and `count - 1` after it. -/
def plot_path_reads (count : Nat) : List Int :=
  [0] ++ (List.range (count - 1)).map (fun (j : Nat) => (j : Int)) ++ [(count : Int) - 1]

mutual
/-- The sub-paths `plot_path` draws for a geometry, in order: the vertex
lists of the geometries without children that its loop reaches. -/
def plot_path_leaves : OGRGeometryH → List (List simplet_point_t)
  | .mk _ _ children => plot_path_refs_leaves children
/-- The sub-paths drawn for the child references from some index on. -/
def plot_path_refs_leaves : OGRGeometryRefs → List (List simplet_point_t)
  | .nil => []
  | .null rest => plot_path_refs_leaves rest
  | .ref subgeom rest =>
    (if OGR_G_GetGeometryCount subgeom > 0 then plot_path_leaves subgeom
     else [subgeom.points])
      ++ plot_path_refs_leaves rest
end

/-- The save depth of a context after a trace, started at depth `d`, when
the trace is well bracketed: `cairo_save` is only called at depth 0 (no
nesting), `cairo_restore` only at depth 1, and every other call is made at
depth 1, between a save and its restore. `none` when one call breaks this. -/
def save_depth : Nat → List cairo_cmd → Option Nat
  | d, [] => some d
  | d, .save :: rest => if d = 0 then save_depth 1 rest else none
  | d, .restore :: rest => if d = 1 then save_depth 0 rest else none
  | d, .move_to _ _ :: rest => if d = 1 then save_depth d rest else none
  | d, .new_path :: rest => if d = 1 then save_depth d rest else none
  | d, .line_to _ _ :: rest => if d = 1 then save_depth d rest else none
  | d, .arc _ _ _ _ _ :: rest => if d = 1 then save_depth d rest else none
  | d, .close_path :: rest => if d = 1 then save_depth d rest else none
  | d, .clip :: rest => if d = 1 then save_depth d rest else none
  | d, .style_call _ _ :: rest => if d = 1 then save_depth d rest else none

/-- A trace without `cairo_save` and `cairo_restore`. -/
def no_save_restore (cmds : List cairo_cmd) : Prop :=
  ∀ c ∈ cmds, c ≠ .save ∧ c ≠ .restore

/-- A line string with two vertices and no child geometry. -/
def geom_linestring : OGRGeometryH := .mk .wkbLineString [⟨0, 0⟩, ⟨3, 4⟩] .nil

/-- A polygon with one ring of four vertices. -/
def geom_polygon : OGRGeometryH :=
  .mk .wkbPolygon []
    (.ref (.mk (.other 101) [⟨0, 0⟩, ⟨4, 0⟩, ⟨4, 4⟩, ⟨0, 0⟩] .nil) .nil)

/-! ## Multi-points -/

/-- The points of a multi-point: the vertices of its child geometries, in
child order. -/
def OGRGeometryRefs.member_points : OGRGeometryRefs → List simplet_point_t
  | .nil => []
  | .null rest => rest.member_points
  | .ref geom rest => geom.points ++ rest.member_points

/-- A multi-point as OGR hands it over: no vertex of its own, and the two
points (1, 1) and (2, 2) as child point geometries. -/
def geom_multipoint : OGRGeometryH :=
  .mk .wkbMultiPoint []
    (.ref (.mk .wkbPoint [⟨1, 1⟩] .nil) (.ref (.mk .wkbPoint [⟨2, 2⟩] .nil) .nil))

end SimpleTiles

/-! # Theorems -/

namespace SimpleTiles

open simplet_status_t

/-! ## simplet_map_is_valid -/

/-- C1, as stated, fails: after `simplet_map_set_size(map, -1, -1)` on a map
with bounds, projection and a layer, `simplet_map_is_valid` returns OK
although neither the width nor the height is positive. -/
theorem is_valid_negative_size_ok :
    ¬ (simplet_map_is_valid map_negative_size = SIMPLET_OK ↔
        (map_negative_size.valid = SIMPLET_OK ∧ map_negative_size.bounds.isSome ∧
          map_negative_size.proj.isSome ∧ 0 < map_negative_size.width ∧
          0 < map_negative_size.height ∧ map_negative_size.layers ≠ [])) := by
  have h : simplet_map_is_valid map_negative_size = SIMPLET_OK := by decide
  have hw : ¬ (0 < map_negative_size.width) := by decide
  intro hiff
  exact hw (hiff.mp h).2.2.2.1

/-- C1, amended: `simplet_map_is_valid` returns OK exactly when the recorded
valid status is OK, bounds and projection are set, width and height are both
different from zero, and the layer list is non-empty; in every other case it
returns ERR. -/
theorem is_valid_iff (map : simplet_map_t) :
    (simplet_map_is_valid map = SIMPLET_OK ↔
      (map.valid = SIMPLET_OK ∧ map.bounds.isSome ∧ map.proj.isSome ∧
        map.width ≠ 0 ∧ map.height ≠ 0 ∧ map.layers ≠ [])) ∧
    (simplet_map_is_valid map = SIMPLET_OK ∨ simplet_map_is_valid map = SIMPLET_ERR) := by
  unfold simplet_map_is_valid
  cases hb : map.bounds <;> cases hp : map.proj <;> cases hl : map.layers <;>
    by_cases hv : map.valid = SIMPLET_OK <;> by_cases hh : map.height = 0 <;>
    by_cases hw : map.width = 0 <;> simp [hv, hh, hw]

/-! ## plot_path -/

theorem OGR_G_GetPoint_lt (points : List simplet_point_t) (j : Nat) (h : j < points.length) :
    OGR_G_GetPoint points j = points.get ⟨j, h⟩ := by
  unfold OGR_G_GetPoint
  have h1 : (0 : Int) ≤ (j : Int) ∧ (j : Int) < (points.length : Int) := by
    constructor <;> omega
  rw [if_pos h1]
  simp [List.getD, h]

theorem OGR_G_GetPoint_last (points : List simplet_point_t) (h : points ≠ []) :
    OGR_G_GetPoint points ((points.length : Int) - 1) = points.getLast h := by
  have hpos : 0 < points.length := List.length_pos.mpr h
  have hcast : ((points.length : Int) - 1) = ((points.length - 1 : Nat) : Int) := by omega
  rw [hcast, OGR_G_GetPoint_lt points (points.length - 1) (by omega)]
  rw [List.getLast_eq_getElem]
  rfl

theorem OGR_G_GetPoint_zero (p : simplet_point_t) (rest : List simplet_point_t) :
    OGR_G_GetPoint (p :: rest) 0 = p := by
  have h := OGR_G_GetPoint_lt (p :: rest) 0 (by simp)
  simpa using h

theorem plot_path_step_eq (ctx : cairo_t) (nw : simplet_point_t)
    (points : List simplet_point_t) (st : simplet_point_t × List cairo_cmd) (j : Nat) :
    plot_path_step ctx nw points st j =
      plot_vertex_step ctx nw st (OGR_G_GetPoint points j) := rfl

theorem range_map_GetPoint (points : List simplet_point_t) :
    (List.range (points.length - 1)).map (fun j => OGR_G_GetPoint points (j : Nat)) =
      points.dropLast := by
  apply List.ext_getElem
  · simp
  · intro i h1 h2
    have hi : i < points.length - 1 := by simpa using h1
    have hlt : i < points.length := by omega
    simp only [List.getElem_map, List.getElem_range, List.getElem_dropLast]
    rw [OGR_G_GetPoint_lt points i hlt]
    rfl

theorem plot_path_loop_eq_foldl (ctx : cairo_t) (nw : simplet_point_t)
    (points : List simplet_point_t) :
    plot_path_loop ctx nw points =
      points.dropLast.foldl (plot_vertex_step ctx nw) (OGR_G_GetPoint points 0, []) := by
  unfold plot_path_loop
  rw [← range_map_GetPoint points, List.foldl_map]
  rfl

theorem plot_vertex_step_near (ctx : cairo_t) (nw : simplet_point_t)
    (st : simplet_point_t × List cairo_cmd) (p : simplet_point_t)
    (h : within_threshold ctx st.1 p) : plot_vertex_step ctx nw st p = st := by
  unfold within_threshold at h
  unfold plot_vertex_step
  have h2 : ¬ ((ctx.user_to_device_distance (|st.1.x - p.x|, |st.1.y - p.y|)).1 ≥ 1 / 2 ∨
      (ctx.user_to_device_distance (|st.1.x - p.x|, |st.1.y - p.y|)).2 ≥ 1 / 2) := by
    push_neg
    exact h
  simp only [if_neg h2]

theorem plot_vertex_step_far (ctx : cairo_t) (nw : simplet_point_t)
    (st : simplet_point_t × List cairo_cmd) (p : simplet_point_t)
    (h : ¬ within_threshold ctx st.1 p) :
    plot_vertex_step ctx nw st p = (p, st.2 ++ [.line_to (p.x - nw.x) (nw.y - p.y)]) := by
  unfold within_threshold at h
  unfold plot_vertex_step
  have h2 : (ctx.user_to_device_distance (|st.1.x - p.x|, |st.1.y - p.y|)).1 ≥ 1 / 2 ∨
      (ctx.user_to_device_distance (|st.1.x - p.x|, |st.1.y - p.y|)).2 ≥ 1 / 2 := by
    by_contra hc
    push_neg at hc
    exact h hc
  simp only [if_pos h2]

theorem plot_vertex_fold_near (ctx : cairo_t) (nw : simplet_point_t)
    (st : simplet_point_t × List cairo_cmd) (ps : List simplet_point_t)
    (h : ∀ p ∈ ps, within_threshold ctx st.1 p) :
    ps.foldl (plot_vertex_step ctx nw) st = st := by
  induction ps with
  | nil => rfl
  | cons p rest ih =>
    rw [List.foldl_cons, plot_vertex_step_near ctx nw st p (h p (List.mem_cons_self p rest))]
    exact ih (fun q hq => h q (List.mem_cons_of_mem p hq))

theorem plot_path_loop_near (ctx : cairo_t) (nw : simplet_point_t)
    (points : List simplet_point_t)
    (h : ∀ p ∈ points, within_threshold ctx (OGR_G_GetPoint points 0) p) :
    plot_path_loop ctx nw points = (OGR_G_GetPoint points 0, []) := by
  rw [plot_path_loop_eq_foldl]
  apply plot_vertex_fold_near
  intro p hp
  exact h p (List.mem_of_mem_dropLast hp)

/-- An outlier becomes the anchor: in a sub-path
`first :: pre ++ v :: post ++ [last]` where `first` and the vertices of `pre`
pass below the threshold against `first`, `v` does not, and the vertices of
`post` pass below the threshold against `v`, the vertex loop emits `v` alone
and the anchor after it is `v`: the vertices of `post` were compared with
`v`, not with `first`. -/
theorem plot_path_build_one_outlier (ctx : cairo_t) (nw first v last : simplet_point_t)
    (pre post : List simplet_point_t)
    (hpre : ∀ p ∈ first :: pre, within_threshold ctx first p)
    (hv : ¬ within_threshold ctx first v)
    (hpost : ∀ p ∈ post, within_threshold ctx v p) :
    plot_path_loop ctx nw (first :: (pre ++ v :: (post ++ [last]))) =
        (v, [.line_to (translate nw v).1 (translate nw v).2]) ∧
      plot_path_build ctx nw (first :: (pre ++ v :: (post ++ [last]))) =
        [.save, .move_to (translate nw first).1 (translate nw first).2, .new_path,
          .line_to (translate nw v).1 (translate nw v).2,
          .line_to (translate nw last).1 (translate nw last).2] := by
  have h0 : OGR_G_GetPoint (first :: (pre ++ v :: (post ++ [last]))) 0 = first :=
    OGR_G_GetPoint_zero _ _
  have hl : OGR_G_GetPoint (first :: (pre ++ v :: (post ++ [last])))
      (((first :: (pre ++ v :: (post ++ [last]))).length : Int) - 1) = last := by
    rw [OGR_G_GetPoint_last _ (by simp)]
    simp [List.getLast_cons, List.getLast_append]
  have hdrop : (first :: (pre ++ v :: (post ++ [last]))).dropLast =
      (first :: pre) ++ v :: post := by
    have e : first :: (pre ++ v :: (post ++ [last])) = ((first :: pre) ++ v :: post) ++ [last] := by
      simp
    rw [e, List.dropLast_concat]
  have hloop : plot_path_loop ctx nw (first :: (pre ++ v :: (post ++ [last]))) =
      (v, [.line_to (translate nw v).1 (translate nw v).2]) := by
    rw [plot_path_loop_eq_foldl, hdrop, h0, List.foldl_append,
      plot_vertex_fold_near ctx nw (first, []) (first :: pre) hpre, List.foldl_cons,
      plot_vertex_step_far ctx nw (first, []) v hv]
    exact plot_vertex_fold_near ctx nw _ post hpost
  refine ⟨hloop, ?_⟩
  unfold plot_path_build
  simp only [hloop, h0, hl, translate]
  rfl

theorem path_vertices_concat_line_to (cmds : List cairo_cmd) (acc : List (ℚ × ℚ)) (x y : ℚ) :
    path_vertices acc (cmds ++ [.line_to x y]) = path_vertices acc cmds ++ [(x, y)] := by
  induction cmds generalizing acc with
  | nil => simp [path_vertices]
  | cons c rest ih => cases c <;> simp [path_vertices, ih]

/-- C2 on the code: for a sub-path `first :: mid ++ [last]` (two or more
vertices) all of whose vertices pass below the threshold against the first
vertex, `plot_path` calls `cairo_move_to` on the first vertex, then
`cairo_new_path`, then a single `cairo_line_to` on the last vertex; the path
cairo then holds has one vertex, the last one, and not the first and the
last. -/
theorem plot_path_build_all_within (ctx : cairo_t) (nw first last : simplet_point_t)
    (mid : List simplet_point_t)
    (h : ∀ p ∈ first :: (mid ++ [last]), within_threshold ctx first p) :
    plot_path_build ctx nw (first :: (mid ++ [last])) =
        [.save, .move_to (translate nw first).1 (translate nw first).2, .new_path,
          .line_to (translate nw last).1 (translate nw last).2] ∧
      path_vertices [] (plot_path_build ctx nw (first :: (mid ++ [last]))) =
        [translate nw last] ∧
      path_vertices [] (plot_path_build ctx nw (first :: (mid ++ [last]))) ≠
        [translate nw first, translate nw last] := by
  have h0 : OGR_G_GetPoint (first :: (mid ++ [last])) 0 = first := OGR_G_GetPoint_zero _ _
  have hl : OGR_G_GetPoint (first :: (mid ++ [last]))
      (((first :: (mid ++ [last])).length : Int) - 1) = last := by
    rw [OGR_G_GetPoint_last _ (by simp)]
    simp
  have hloop := plot_path_loop_near ctx nw (first :: (mid ++ [last])) (by rw [h0]; exact h)
  have hb : plot_path_build ctx nw (first :: (mid ++ [last])) =
      [.save, .move_to (translate nw first).1 (translate nw first).2, .new_path,
        .line_to (translate nw last).1 (translate nw last).2] := by
    unfold plot_path_build
    simp only [hloop, h0, hl, translate]
    rfl
  refine ⟨hb, ?_, ?_⟩
  · rw [hb]; simp [path_vertices]
  · rw [hb]; simp [path_vertices]

/-- C2 at a concrete input: the sub-path `ring_short` with the identity
transformation and the northwest corner at the origin: both vertices pass
below the threshold against the first one, and the path holds the single
vertex (1/4, 0). -/
theorem plot_path_build_all_within_witness :
    within_threshold identity_ctx ⟨0, 0⟩ ⟨0, 0⟩ ∧
      within_threshold identity_ctx ⟨0, 0⟩ ⟨1 / 4, 0⟩ ∧
      path_vertices [] (plot_path_build identity_ctx ⟨0, 0⟩ ring_short) = [(1 / 4, 0)] := by
  have h0 : within_threshold identity_ctx ⟨0, 0⟩ ⟨0, 0⟩ := by
    norm_num [within_threshold, identity_ctx]
  have h1 : within_threshold identity_ctx ⟨0, 0⟩ ⟨1 / 4, 0⟩ := by
    norm_num [within_threshold, identity_ctx, abs_of_nonneg]
  refine ⟨h0, h1, ?_⟩
  have h := (plot_path_build_all_within identity_ctx ⟨0, 0⟩ ⟨0, 0⟩ ⟨1 / 4, 0⟩ [] (by
    intro p hp
    simp only [List.nil_append, List.mem_cons, List.mem_singleton, List.not_mem_nil,
      or_false] at hp
    rcases hp with hp | hp <;> subst hp
    · exact h0
    · exact h1)).2.1
  simpa [ring_short, translate] using h

theorem line_tos_append (a b : List cairo_cmd) :
    line_tos (a ++ b) = line_tos a ++ line_tos b := by
  induction a with
  | nil => rfl
  | cons c rest ih => cases c <;> simp [line_tos, ih]

theorem line_tos_apply_styles (styles : List simplet_style_t) (keys : List String) :
    line_tos (simplet_apply_styles styles keys) = [] := by
  induction keys with
  | nil => rfl
  | cons k rest ih =>
    unfold simplet_apply_styles
    cases lookup_styledef k with
    | none => exact ih
    | some d =>
      cases simplet_lookup_style styles k with
      | none => exact ih
      | some st => simpa [line_tos] using ih

theorem line_tos_finish_polygon (rule : simplet_rule_t) :
    line_tos (finish_polygon rule) = [] := by
  simp [finish_polygon, line_tos, line_tos_apply_styles]

theorem line_tos_finish_linestring (rule : simplet_rule_t) :
    line_tos (finish_linestring rule) = [] := by
  simp [finish_linestring, line_tos_apply_styles]

/-- C3: for a sub-path with at least one vertex, any rule and either
finisher `plot_path` is called with, the last `cairo_line_to` of the sub-path
goes to the translated final vertex `(x - nw.x, nw.y - y)`, whatever the
vertex loop emitted before it, and that vertex is the last vertex of the
path cairo holds when the styles are applied. -/
theorem plot_path_ring_last_line_to (ctx : cairo_t) (nw : simplet_point_t)
    (rule : simplet_rule_t) (cb : simplet_rule_t → List cairo_cmd)
    (points : List simplet_point_t) (hne : points ≠ [])
    (hcb : cb = finish_polygon ∨ cb = finish_linestring) :
    (line_tos (plot_path_ring ctx nw rule cb points)).getLast? =
        some ((points.getLast hne).x - nw.x, nw.y - (points.getLast hne).y) ∧
      (path_vertices [] (plot_path_build ctx nw points)).getLast? =
        some ((points.getLast hne).x - nw.x, nw.y - (points.getLast hne).y) := by
  have hcb0 : line_tos (cb rule) = [] := by
    rcases hcb with h | h <;> subst h
    · exact line_tos_finish_polygon rule
    · exact line_tos_finish_linestring rule
  constructor
  · unfold plot_path_ring plot_path_build
    simp only [line_tos_append, line_tos_apply_styles, hcb0, OGR_G_GetPoint_last points hne]
    simp [line_tos]
  · unfold plot_path_build
    simp only [OGR_G_GetPoint_last points hne]
    rw [path_vertices_concat_line_to]
    simp

/-- C3 at a concrete input: the three-vertex sub-path `ring_far` drawn for a
line string. -/
theorem plot_path_ring_last_line_to_witness :
    (line_tos (plot_path_ring identity_ctx ⟨0, 0⟩ rule_stroke finish_linestring
        ring_far)).getLast? = some ((1 : ℚ) - 0, (0 : ℚ) - 1) ∧
      (path_vertices [] (plot_path_build identity_ctx ⟨0, 0⟩ ring_far)).getLast? =
        some ((1 : ℚ) - 0, (0 : ℚ) - 1) :=
  plot_path_ring_last_line_to identity_ctx ⟨0, 0⟩ rule_stroke finish_linestring ring_far
    (by simp [ring_far]) (Or.inr rfl)

/-! ## Style lookup and application -/

theorem lookup_style_loop_eq_find (key : String) (styles : List simplet_style_t) :
    lookup_style_loop key styles = styles.find? (fun s => decide (s.key = key)) := by
  induction styles with
  | nil => rfl
  | cons s rest ih =>
    unfold lookup_style_loop
    by_cases h : key = s.key
    · simp [h]
    · have h2 : ¬ s.key = key := fun e => h e.symm
      simp [h, h2, ih]

theorem lookup_style_eq_find (styles : List simplet_style_t) (key : String) :
    simplet_lookup_style styles key = styles.find? (fun s => decide (s.key = key)) := by
  unfold simplet_lookup_style simplet_get_list_iter
  exact lookup_style_loop_eq_find key styles

theorem lookup_styledef_from_eq_find (key : String) (table : List simplet_styledef_t) :
    lookup_styledef_from key table = table.find? (fun d => decide (d.key = key)) := by
  induction table with
  | nil => rfl
  | cons d rest ih =>
    unfold lookup_styledef_from
    by_cases h : key = d.key
    · simp [h]
    · have h2 : ¬ d.key = key := fun e => h e.symm
      simp [h, h2, ih]

theorem add_styles_styles (rule : simplet_rule_t) (kvs : List (String × String)) :
    (add_styles rule kvs).styles =
      rule.styles ++ kvs.map (fun kv => (⟨kv.1, kv.2⟩ : simplet_style_t)) := by
  induction kvs generalizing rule with
  | nil => simp [add_styles]
  | cons kv rest ih =>
    unfold add_styles
    rw [ih]
    simp [simplet_rule_add_style, simplet_style_new, simplet_list_push]

/-- C4: `simplet_lookup_style` returns `s` exactly when `s` is the first
style of the list, in insertion order, whose key is the given key (every
style before it has another key); it returns `NULL` exactly when no style
has the key; and a sequence of `simplet_rule_add_style` calls leaves the
styles in the order of the calls, after those the rule had. -/
theorem lookup_style_first (styles : List simplet_style_t) (key : String) :
    (∀ s, simplet_lookup_style styles key = some s ↔
        ∃ pre post, styles = pre ++ s :: post ∧ s.key = key ∧ ∀ t ∈ pre, t.key ≠ key) ∧
      (simplet_lookup_style styles key = none ↔ ∀ t ∈ styles, t.key ≠ key) ∧
      (∀ (rule : simplet_rule_t) (kvs : List (String × String)),
        (add_styles rule kvs).styles =
          rule.styles ++ kvs.map (fun kv => (⟨kv.1, kv.2⟩ : simplet_style_t))) := by
  refine ⟨?_, ?_, add_styles_styles⟩
  · intro s
    rw [lookup_style_eq_find, List.find?_eq_some]
    constructor
    · rintro ⟨hk, pre, post, hsplit, hpre⟩
      refine ⟨pre, post, hsplit, by simpa using hk, ?_⟩
      intro t ht
      simpa using hpre t ht
    · rintro ⟨pre, post, hsplit, hk, hpre⟩
      refine ⟨by simpa using hk, pre, post, hsplit, ?_⟩
      intro t ht
      simpa using hpre t ht
  · rw [lookup_style_eq_find, List.find?_eq_none]
    simp

/-- C5: `simplet_apply_styles` makes its verb calls in the order of the
caller's keys: each key contributes the call of its table verb on the
argument of the first style with that key when the table has the key and the
style list defines it, and nothing otherwise. The table has no entry for
`radius`, so asking for `radius` calls nothing, whatever the styles. -/
theorem apply_styles_in_key_order (styles : List simplet_style_t) (keys : List String) :
    simplet_apply_styles styles keys =
        keys.flatMap (fun k =>
          match styleTable.find? (fun d => decide (d.key = k)),
            styles.find? (fun s => decide (s.key = k)) with
          | some d, some st => [cairo_cmd.style_call d.call st.arg]
          | _, _ => []) ∧
      styleTable.find? (fun d => decide (d.key = "radius")) = none ∧
      simplet_apply_styles styles ["radius"] = [] := by
  refine ⟨?_, by decide, ?_⟩
  · induction keys with
    | nil => rfl
    | cons k rest ih =>
      unfold simplet_apply_styles
      rw [List.flatMap_cons, ← ih]
      unfold lookup_styledef
      rw [lookup_styledef_from_eq_find, lookup_style_eq_find]
      cases styleTable.find? (fun d => decide (d.key = k)) with
      | none => simp
      | some d =>
        cases styles.find? (fun s => decide (s.key = k)) with
        | none => simp
        | some st => simp
  · have h : lookup_styledef "radius" = none := by decide
    simp [simplet_apply_styles, h]

/-! ## plot_point -/

theorem arcs_append (a b : List cairo_cmd) : arcs (a ++ b) = arcs a ++ arcs b := by
  induction a with
  | nil => rfl
  | cons c rest ih => cases c <;> simp [arcs, ih]

theorem arcs_apply_styles (styles : List simplet_style_t) (keys : List String) :
    arcs (simplet_apply_styles styles keys) = [] := by
  induction keys with
  | nil => rfl
  | cons k rest ih =>
    unfold simplet_apply_styles
    cases lookup_styledef k with
    | none => exact ih
    | some d =>
      cases simplet_lookup_style styles k with
      | none => exact ih
      | some st => simpa [arcs] using ih

theorem arcs_map_arc (points : List simplet_point_t) (f : simplet_point_t → ℚ × ℚ) (r : ℚ) :
    arcs (points.map (fun p => cairo_cmd.arc (f p).1 (f p).2 r 0 2)) =
      points.map (fun p => cairo_cmd.arc (f p).1 (f p).2 r 0 2) := by
  induction points with
  | nil => rfl
  | cons p rest ih => simp [arcs, ih]

/-- Point mode on the vertices `OGR_G_GetPoint` gives: for a geometry of
type point or multi-point, when no style of the rule has the key `radius`,
`dispatch` makes no call at all; when `st` is the first style with key
`radius`, `dispatch` saves, makes one `cairo_arc` over the full circle (0 to
2 pi) per vertex in `points`, centred at `(x - nw.x, nw.y - y)` with the
radius parsed by `strtod` from `st.arg` and converted from device to user
distance, applies the styles and the point finisher, clips and restores;
these are all the arcs of the trace. The child geometries play no part. -/
theorem dispatch_point (strtod : String → ℚ) (ctx : cairo_t) (nw : simplet_point_t)
    (rule : simplet_rule_t) (type : OGRwkbGeometryType) (points : List simplet_point_t)
    (children : OGRGeometryRefs)
    (htype : type = .wkbPoint ∨ type = .wkbMultiPoint) :
    (rule.styles.find? (fun s => decide (s.key = "radius")) = none →
        dispatch strtod ctx nw rule (.mk type points children) = []) ∧
      (∀ st, rule.styles.find? (fun s => decide (s.key = "radius")) = some st →
        dispatch strtod ctx nw rule (.mk type points children) =
            [cairo_cmd.save]
              ++ points.map (fun p =>
                  cairo_cmd.arc (translate nw p).1 (translate nw p).2
                    (ctx.device_to_user_distance (strtod st.arg, 0)).1 0 2)
              ++ simplet_apply_styles rule.styles ["line-join", "line-cap"]
              ++ finish_point rule
              ++ [cairo_cmd.clip, cairo_cmd.restore] ∧
          arcs (dispatch strtod ctx nw rule (.mk type points children)) =
            points.map (fun p =>
              cairo_cmd.arc (translate nw p).1 (translate nw p).2
                (ctx.device_to_user_distance (strtod st.arg, 0)).1 0 2)) := by
  have hd : dispatch strtod ctx nw rule (.mk type points children) =
      plot_point strtod ctx nw rule finish_point (.mk type points children) := by
    rcases htype with h | h <;> subst h <;> simp [dispatch]
  rw [hd]
  unfold plot_point
  rw [lookup_style_eq_find]
  constructor
  · intro hnone
    rw [hnone]
  · intro st hsome
    rw [hsome]
    refine ⟨rfl, ?_⟩
    simp only [arcs_append, arcs_apply_styles, OGRGeometryH.points]
    have h1 := arcs_map_arc points (translate nw)
      (ctx.device_to_user_distance (strtod st.arg, 0)).1
    simp only [translate] at h1
    simp [arcs, finish_point, arcs_apply_styles, h1, translate]

/-- The point (10, 20) drawn with the rule `rule_radius`, whose first
`radius` style has the argument 3, the map's northwest corner being
(0, 100): one arc, centred at (10, 80). -/
theorem dispatch_single_point :
    arcs (dispatch (fun _ => 3) identity_ctx ⟨0, 100⟩ rule_radius geom_point) =
      [cairo_cmd.arc 10 80 3 0 2] := by
  have h := ((dispatch_point (fun _ => 3) identity_ctx ⟨0, 100⟩ rule_radius .wkbPoint
    [⟨10, 20⟩] .nil (Or.inl rfl)).2 ⟨"radius", "3"⟩ (by decide)).2
  have e : geom_point = .mk .wkbPoint [⟨10, 20⟩] .nil := rfl
  rw [e, h]
  norm_num [translate, identity_ctx]

/-! ## simplet_map_set_slippy -/

/-- C7 on the code: the tests `!status` of `simplet_map_set_slippy` hold
only for the enumerator of `simplet_status_t` whose value is zero. If that is
`SIMPLET_OK`, the function returns a non-OK status although both steps
return OK. If neither `SIMPLET_OK` nor `SIMPLET_OGR_ERR` is zero, the
function returns OK although the projection step returns a non-OK status. If
neither `SIMPLET_OK` nor `SIMPLET_OOM` is zero, it returns OK although the
bounds step returns a non-OK status. Whatever the values are, as long as
`SIMPLET_OOM` and `SIMPLET_OGR_ERR` differ, one of the three cases
applies. -/
theorem set_slippy_status_defect (code : simplet_status_t → Nat)
    (h : code SIMPLET_OOM ≠ code SIMPLET_OGR_ERR) (map : simplet_map_t) (x y z : Nat) :
    (code SIMPLET_OK = 0 →
        (∀ m, (simplet_map_set_srs env_ok m env_ok.SIMPLET_MERCATOR).2 = SIMPLET_OK) ∧
        (∀ m a b c d, (simplet_map_set_bounds env_ok m a b c d).2 = SIMPLET_OK) ∧
        (simplet_map_set_slippy code env_ok map x y z).2 ≠ SIMPLET_OK) ∧
      (code SIMPLET_OK ≠ 0 → code SIMPLET_OGR_ERR ≠ 0 →
        (∀ m, (simplet_map_set_srs env_bad_proj m env_bad_proj.SIMPLET_MERCATOR).2
          ≠ SIMPLET_OK) ∧
        (simplet_map_set_slippy code env_bad_proj map x y z).2 = SIMPLET_OK) ∧
      (code SIMPLET_OK ≠ 0 → code SIMPLET_OOM ≠ 0 →
        (∀ m a b c d, (simplet_map_set_bounds env_no_bounds m a b c d).2 ≠ SIMPLET_OK) ∧
        (simplet_map_set_slippy code env_no_bounds map x y z).2 = SIMPLET_OK) ∧
      (code SIMPLET_OK = 0 ∨ (code SIMPLET_OK ≠ 0 ∧ code SIMPLET_OGR_ERR ≠ 0) ∨
        (code SIMPLET_OK ≠ 0 ∧ code SIMPLET_OOM ≠ 0)) := by
  refine ⟨?_, ?_, ?_, ?_⟩
  · intro hok
    refine ⟨fun m => rfl, fun m a b c d => rfl, ?_⟩
    simp [simplet_map_set_slippy, simplet_map_set_srs, env_ok, hok, simplet_map_error]
  · intro hok hogr
    refine ⟨fun m => by simp [simplet_map_set_srs, env_bad_proj, env_ok, simplet_map_error], ?_⟩
    simp [simplet_map_set_slippy, simplet_map_set_srs, simplet_map_set_bounds, env_bad_proj,
      env_ok, hok, hogr, simplet_map_error]
  · intro hok hoom
    refine ⟨fun m a b c d => by
      simp [simplet_map_set_bounds, env_no_bounds, env_ok, simplet_map_error], ?_⟩
    simp [simplet_map_set_slippy, simplet_map_set_srs, simplet_map_set_bounds, env_no_bounds,
      env_ok, hok, hoom, simplet_map_error]
  · by_cases hok : code SIMPLET_OK = 0
    · exact Or.inl hok
    · by_cases hogr : code SIMPLET_OGR_ERR = 0
      · exact Or.inr (Or.inr ⟨hok, fun e => h (e.trans hogr.symm)⟩)
      · exact Or.inr (Or.inl ⟨hok, hogr⟩)

/-- C7 at a concrete input: with the enumerators numbered in declaration
order from `SIMPLET_ERR = 0`, a projection string that OGR rejects makes the
projection step return a non-OK status, and `simplet_map_set_slippy` on a
new map and tile (0, 0, 0) returns `SIMPLET_OK`. -/
theorem set_slippy_status_defect_witness :
    code_decl SIMPLET_OOM ≠ code_decl SIMPLET_OGR_ERR ∧
      (simplet_map_set_srs env_bad_proj (simplet_map_set_size simplet_map_new 256 256).1
        env_bad_proj.SIMPLET_MERCATOR).2 ≠ SIMPLET_OK ∧
      (simplet_map_set_slippy code_decl env_bad_proj simplet_map_new 0 0 0).2 = SIMPLET_OK :=
  ⟨by decide,
    ((set_slippy_status_defect code_decl (by decide) simplet_map_new 0 0 0).2.1
      (by decide) (by decide)).1 _,
    ((set_slippy_status_defect code_decl (by decide) simplet_map_new 0 0 0).2.1
      (by decide) (by decide)).2⟩

/-! ## simplet_rule_process -/

/-- C8 on the code: when the map has bounds and a context, the bounds
geometry is built and `OGR_DS_ExecuteSQL` yields no result set for the rule's
query, `simplet_rule_process` dispatches no geometry and returns 1, not 0:
its test is on the layer argument instead of the result set. -/
theorem rule_process_without_result_set (env : Env) (rule : simplet_rule_t)
    (layer : simplet_layer_t) (map : simplet_map_t) (nw se : simplet_point_t) (ctx : cairo_t)
    (hb : map.bounds = some (.rect nw se)) (hc : map._ctx = some ctx)
    (hg : env.simplet_bounds_to_ogr (.rect nw se) map.proj = true)
    (hq : env.OGR_DS_ExecuteSQL layer.source rule.ogrsql (.rect nw se) = none) :
    simplet_rule_process env rule layer map = some (1, []) := by
  unfold simplet_rule_process
  rw [hb]
  simp only [hg, if_true, hq, hc, rule_process_loop]

/-- C8 at a concrete input: the rule without query text on the map
`map_rendering`, in the environment `env_ok`, where such a query has no
result set. -/
theorem rule_process_without_result_set_witness :
    env_ok.OGR_DS_ExecuteSQL "roads.shp" rule_no_query.ogrsql (.rect ⟨0, 100⟩ ⟨100, 0⟩) = none ∧
      simplet_rule_process env_ok rule_no_query ⟨"roads.shp", []⟩ map_rendering =
        some (1, []) :=
  ⟨rfl, rule_process_without_result_set env_ok rule_no_query ⟨"roads.shp", []⟩ map_rendering
    ⟨0, 100⟩ ⟨100, 0⟩ identity_ctx rfl rfl rfl rfl⟩

/-! ## Slippy tile bounds -/

theorem merc_tile_length_pos (z : Nat) : 0 < SIMPLET_MERC_LENGTH / (2 : ℚ) ^ z := by
  unfold SIMPLET_MERC_LENGTH
  positivity

/-- C9, as stated, fails: for the tile x = 4294967295, y = 0 at zoom 32 the
index satisfies x < 2 ^ z and `simplet_map_set_slippy` returns OK, but the
`unsigned int` sum `x + 1` wraps to zero, so the bounds are not the rectangle
of the formula. -/
theorem set_slippy_wraps_at_uint_max :
    4294967295 < 2 ^ 32 ∧ 0 < 2 ^ 32 ∧
      (simplet_map_set_slippy code_decl env_ok simplet_map_new 4294967295 0 32).2 = SIMPLET_OK ∧
      (simplet_map_set_slippy code_decl env_ok simplet_map_new 4294967295 0 32).1.bounds ≠
        some (.rect
          ⟨(4294967295 : ℕ) * (SIMPLET_MERC_LENGTH / (2 : ℚ) ^ 32) - SIMPLET_MERC_LENGTH / 2,
            SIMPLET_MERC_LENGTH / 2 - (0 : ℕ) * (SIMPLET_MERC_LENGTH / (2 : ℚ) ^ 32)⟩
          ⟨((4294967295 + 1 : ℕ) : ℚ) * (SIMPLET_MERC_LENGTH / (2 : ℚ) ^ 32)
              - SIMPLET_MERC_LENGTH / 2,
            SIMPLET_MERC_LENGTH / 2 - ((0 + 1 : ℕ) : ℚ) * (SIMPLET_MERC_LENGTH / (2 : ℚ) ^ 32)⟩) := by
  refine ⟨by norm_num, by norm_num, ?_, ?_⟩
  · simp [simplet_map_set_slippy, simplet_map_set_srs, simplet_map_set_bounds, env_ok,
      code_decl]
  · simp only [simplet_map_set_slippy, simplet_map_set_srs, simplet_map_set_bounds, env_ok,
      code_decl, simplet_map_set_size, simplet_bounds_extend, uint_add, SIMPLET_MERC_LENGTH]
    norm_num

theorem uint_add_one (x : Nat) (h : x + 1 < 2 ^ 32) : uint_add x 1 = x + 1 := by
  unfold uint_add
  exact Nat.mod_eq_of_lt h

theorem set_bounds_tile (env : Env) (map : simplet_map_t) (hb : env.simplet_bounds_new = true)
    (w e n s : ℚ) (hwe : w ≤ e) (hsn : s ≤ n) :
    simplet_map_set_bounds env map e s w n =
      ({ map with bounds := some (.rect ⟨w, n⟩ ⟨e, s⟩) }, SIMPLET_OK) := by
  unfold simplet_map_set_bounds
  simp [hb, simplet_bounds_extend, hwe, hsn]

/-- C9, amended: for every tile (x, y, z) with x + 1 and y + 1 below 2 ^ 32,
a call of `simplet_map_set_slippy` that returns OK and whose bounds object
was allocated sets the size to 256 x 256 and the bounds to the rectangle
with west = x * len - L / 2, east = (x + 1) * len - L / 2,
north = L / 2 - y * len and south = L / 2 - (y + 1) * len, where
L = 40075016.68 and len = L / 2 ^ z. -/
theorem set_slippy_bounds (code : simplet_status_t → Nat) (env : Env) (map : simplet_map_t)
    (x y z : Nat) (hx : x + 1 < 2 ^ 32) (hy : y + 1 < 2 ^ 32)
    (hb : env.simplet_bounds_new = true)
    (hret : (simplet_map_set_slippy code env map x y z).2 = SIMPLET_OK) :
    (simplet_map_set_slippy code env map x y z).1.width = 256 ∧
      (simplet_map_set_slippy code env map x y z).1.height = 256 ∧
      (simplet_map_set_slippy code env map x y z).1.bounds =
        some (.rect
          ⟨(x : ℚ) * (SIMPLET_MERC_LENGTH / (2 : ℚ) ^ z) - SIMPLET_MERC_LENGTH / 2,
            SIMPLET_MERC_LENGTH / 2 - (y : ℚ) * (SIMPLET_MERC_LENGTH / (2 : ℚ) ^ z)⟩
          ⟨((x : ℚ) + 1) * (SIMPLET_MERC_LENGTH / (2 : ℚ) ^ z) - SIMPLET_MERC_LENGTH / 2,
            SIMPLET_MERC_LENGTH / 2
              - ((y : ℚ) + 1) * (SIMPLET_MERC_LENGTH / (2 : ℚ) ^ z)⟩) := by
  have hlen := merc_tile_length_pos z
  have hwe : (x : ℚ) * (SIMPLET_MERC_LENGTH / (2 : ℚ) ^ z) - SIMPLET_MERC_LENGTH / 2 ≤
      ((x : ℚ) + 1) * (SIMPLET_MERC_LENGTH / (2 : ℚ) ^ z) - SIMPLET_MERC_LENGTH / 2 := by
    nlinarith
  have hsn : SIMPLET_MERC_LENGTH / 2 - ((y : ℚ) + 1) * (SIMPLET_MERC_LENGTH / (2 : ℚ) ^ z) ≤
      SIMPLET_MERC_LENGTH / 2 - (y : ℚ) * (SIMPLET_MERC_LENGTH / (2 : ℚ) ^ z) := by
    nlinarith
  have hcx : ((uint_add x 1 : ℕ) : ℚ) = (x : ℚ) + 1 := by
    rw [uint_add_one x hx]; push_cast; ring
  have hcy : ((uint_add y 1 : ℕ) : ℚ) = (y : ℚ) + 1 := by
    rw [uint_add_one y hy]; push_cast; ring
  unfold simplet_map_set_slippy at hret ⊢
  simp only [hcx, hcy] at hret ⊢
  by_cases h1 : code (simplet_map_set_srs env
      (simplet_map_set_size map SIMPLET_SLIPPY_SIZE SIMPLET_SLIPPY_SIZE).1
      env.SIMPLET_MERCATOR).2 = 0
  · rw [if_pos h1] at hret
    simp [simplet_map_error] at hret
  · rw [if_neg h1] at hret ⊢
    rw [set_bounds_tile env _ hb _ _ _ _ hwe hsn] at hret ⊢
    by_cases h2 : code SIMPLET_OK = 0
    · simp [h2, simplet_map_error] at hret
    · simp only [h2, if_false, and_true]
      refine ⟨?_, ?_⟩
      · unfold simplet_map_set_srs simplet_map_set_size simplet_map_error SIMPLET_SLIPPY_SIZE
        split <;> [split; skip] <;> rfl
      · unfold simplet_map_set_srs simplet_map_set_size simplet_map_error SIMPLET_SLIPPY_SIZE
        split <;> [split; skip] <;> rfl

/-- C9 at tile (0, 0, 0): the bounds are the full Mercator extent centred at
the origin, northwest (-L/2, L/2) and southeast (L/2, -L/2), with
L/2 = 20037508.34, and the size is 256 x 256. -/
theorem set_slippy_bounds_witness :
    (simplet_map_set_slippy code_decl env_ok simplet_map_new 0 0 0).2 = SIMPLET_OK ∧
      (simplet_map_set_slippy code_decl env_ok simplet_map_new 0 0 0).1.width = 256 ∧
      (simplet_map_set_slippy code_decl env_ok simplet_map_new 0 0 0).1.height = 256 ∧
      (simplet_map_set_slippy code_decl env_ok simplet_map_new 0 0 0).1.bounds =
        some (.rect ⟨-(2003750834 / 100), 2003750834 / 100⟩
          ⟨2003750834 / 100, -(2003750834 / 100)⟩) := by
  have hret : (simplet_map_set_slippy code_decl env_ok simplet_map_new 0 0 0).2 = SIMPLET_OK := by
    simp [simplet_map_set_slippy, simplet_map_set_srs, simplet_map_set_bounds, env_ok,
      code_decl]
  have h := set_slippy_bounds code_decl env_ok simplet_map_new 0 0 0 (by norm_num)
    (by norm_num) rfl hret
  refine ⟨hret, h.1, h.2.1, ?_⟩
  rw [h.2.2]
  norm_num [SIMPLET_MERC_LENGTH]

/-! ## simplet_map_build_surface -/

theorem build_surface_loop_all_ok (env : Env) (map : simplet_map_t)
    (layers : List simplet_layer_t)
    (h : ∀ l ∈ layers, env.simplet_layer_process l map = SIMPLET_OK) :
    build_surface_loop env map layers = (layers, map) := by
  induction layers with
  | nil => rfl
  | cons l rest ih =>
    unfold build_surface_loop
    have hl := h l (List.mem_cons_self l rest)
    simp [hl, ih (fun k hk => h k (List.mem_cons_of_mem l hk))]

theorem build_surface_loop_first_failure (env : Env) (map : simplet_map_t)
    (pre post : List simplet_layer_t) (lk : simplet_layer_t)
    (hpre : ∀ l ∈ pre, env.simplet_layer_process l map = SIMPLET_OK)
    (hk : env.simplet_layer_process lk map ≠ SIMPLET_OK) :
    build_surface_loop env map (pre ++ lk :: post) =
      (pre ++ [lk],
        (simplet_map_error map (env.simplet_layer_process lk map) "error in rendering").1) := by
  induction pre with
  | nil =>
    simp only [List.nil_append]
    unfold build_surface_loop
    simp [hk]
  | cons l rest ih =>
    simp only [List.cons_append]
    unfold build_surface_loop
    have hl := hpre l (List.mem_cons_self l rest)
    simp [hl, ih (fun k hk2 => hpre k (List.mem_cons_of_mem l hk2))]

theorem valid_of_is_valid (map : simplet_map_t)
    (h : simplet_map_is_valid map = SIMPLET_OK) : map.valid = SIMPLET_OK := by
  by_contra hv
  unfold simplet_map_is_valid at h
  rw [if_pos hv] at h
  exact absurd h (by decide)

/-- C10, as stated, fails: the map `map_wide` is valid and none of its
layers fails, but the image surface cannot be created for its width, so
`simplet_map_build_surface` returns `NULL` and processes no layer. -/
theorem build_surface_null_for_valid_map :
    simplet_map_is_valid map_wide = SIMPLET_OK ∧
      map_wide.layers = [⟨"roads.shp", []⟩] ∧
      env_ok.simplet_layer_process ⟨"roads.shp", []⟩ map_wide = SIMPLET_OK ∧
      (simplet_map_build_surface env_ok map_wide).1 = none ∧
      (simplet_map_build_surface env_ok map_wide).2.1 = [] := by
  refine ⟨by decide, rfl, rfl, ?_, ?_⟩ <;>
    simp [simplet_map_build_surface, simplet_map_is_valid, map_wide, map_ready, env_ok]

/-- C10, amended: for every valid map for which the image surface is
created, `simplet_map_build_surface` returns that surface and hands the
layers to `simplet_layer_process` in insertion order. If every layer returns
OK, all layers are processed and the valid status and the recorded error are
as before. If `lk` is the first layer that returns a non-OK status, the
layers processed are those up to and including `lk`, and that status is the
map's valid status and error status afterwards. -/
theorem build_surface_layers (env : Env) (map : simplet_map_t)
    (hv : simplet_map_is_valid map = SIMPLET_OK)
    (hs : env.cairo_image_surface_create map.width map.height = true) :
    (simplet_map_build_surface env map).1 = some ⟨map.width, map.height⟩ ∧
      ((∀ l ∈ map.layers, env.simplet_layer_process l
            { map with _ctx := some (env.cairo_create ⟨map.width, map.height⟩) } = SIMPLET_OK) →
        (simplet_map_build_surface env map).2.1 = map.layers ∧
          (simplet_map_build_surface env map).2.2.valid = SIMPLET_OK ∧
          (simplet_map_build_surface env map).2.2.error = map.error) ∧
      (∀ pre lk post, map.layers = pre ++ lk :: post →
        (∀ l ∈ pre, env.simplet_layer_process l
            { map with _ctx := some (env.cairo_create ⟨map.width, map.height⟩) } = SIMPLET_OK) →
        env.simplet_layer_process lk
            { map with _ctx := some (env.cairo_create ⟨map.width, map.height⟩) } ≠ SIMPLET_OK →
        (simplet_map_build_surface env map).2.1 = pre ++ [lk] ∧
          (simplet_map_build_surface env map).2.2.valid =
            env.simplet_layer_process lk
              { map with _ctx := some (env.cairo_create ⟨map.width, map.height⟩) } ∧
          (simplet_map_build_surface env map).2.2.error.status =
            env.simplet_layer_process lk
              { map with _ctx := some (env.cairo_create ⟨map.width, map.height⟩) }) := by
  have hvalid : map.valid = SIMPLET_OK := valid_of_is_valid map hv
  have hb : simplet_map_build_surface env map =
      (some ⟨map.width, map.height⟩,
        (build_surface_loop env
          { map with _ctx := some (env.cairo_create ⟨map.width, map.height⟩) } map.layers).1,
        (build_surface_loop env
          { map with _ctx := some (env.cairo_create ⟨map.width, map.height⟩) } map.layers).2) := by
    unfold simplet_map_build_surface
    simp [hv, hs]
  rw [hb]
  refine ⟨rfl, ?_, ?_⟩
  · intro hall
    rw [build_surface_loop_all_ok env _ map.layers hall]
    exact ⟨rfl, hvalid, rfl⟩
  · intro pre lk post hsplit hpre hk
    have e : build_surface_loop env
        { map with _ctx := some (env.cairo_create ⟨map.width, map.height⟩) } map.layers =
        build_surface_loop env
          { map with _ctx := some (env.cairo_create ⟨map.width, map.height⟩) }
          (pre ++ lk :: post) := congrArg _ hsplit
    rw [e, build_surface_loop_first_failure env _ pre post lk hpre hk]
    exact ⟨rfl, rfl, rfl⟩

/-- C10 at a concrete input: of the three layers of `map_three_layers` the
second fails with an OGR error; the first two are processed, the third is
not, the surface is returned and the map records the OGR error. -/
theorem build_surface_layers_witness :
    simplet_map_is_valid map_three_layers = SIMPLET_OK ∧
      (simplet_map_build_surface env_rivers_fail map_three_layers).1 = some ⟨100, 100⟩ ∧
      (simplet_map_build_surface env_rivers_fail map_three_layers).2.1 =
        [⟨"roads.shp", []⟩, ⟨"rivers.shp", []⟩] ∧
      (simplet_map_build_surface env_rivers_fail map_three_layers).2.2.valid = SIMPLET_OGR_ERR ∧
      (simplet_map_build_surface env_rivers_fail map_three_layers).2.2.error.status =
        SIMPLET_OGR_ERR := by
  have h := build_surface_layers env_rivers_fail map_three_layers (by decide) (by decide)
  have h3 := h.2.2 [⟨"roads.shp", []⟩] ⟨"rivers.shp", []⟩ [⟨"towns.shp", []⟩] rfl
    (by decide) (by decide)
  exact ⟨by decide, h.1, h3.1, h3.2.1, h3.2.2⟩

/-! ## Invalid maps and the sticky error state -/

/-- C11: on a map for which `simplet_map_is_valid` returns ERR,
`simplet_map_build_surface` returns `NULL`, hands no layer to
`simplet_layer_process` and leaves the whole map record as it was: error
status and message, valid status, bounds, projection, size and layers. -/
theorem build_surface_invalid (env : Env) (map : simplet_map_t)
    (h : simplet_map_is_valid map = SIMPLET_ERR) :
    simplet_map_build_surface env map = (none, [], map) := by
  unfold simplet_map_build_surface
  rw [if_pos h]

/-- C11 at a concrete input: the map `simplet_map_new` returns is invalid,
and building its surface changes nothing. -/
theorem build_surface_invalid_witness :
    simplet_map_is_valid simplet_map_new = SIMPLET_ERR ∧
      simplet_map_build_surface env_ok simplet_map_new = (none, [], simplet_map_new) :=
  ⟨by decide, build_surface_invalid env_ok simplet_map_new (by decide)⟩

theorem map_error_valid (map : simplet_map_t) (err : simplet_status_t) (msg : String) :
    (simplet_map_error map err msg).1.valid = err := rfl

theorem build_surface_loop_valid (env : Env) (map : simplet_map_t)
    (layers : List simplet_layer_t) (h : map.valid ≠ SIMPLET_OK) :
    (build_surface_loop env map layers).2.valid ≠ SIMPLET_OK := by
  induction layers with
  | nil => exact h
  | cons l rest ih =>
    unfold build_surface_loop
    by_cases hl : env.simplet_layer_process l map = SIMPLET_OK
    · simpa [hl] using ih
    · simp [hl, simplet_map_error]

theorem is_valid_err_of_valid (map : simplet_map_t) (h : map.valid ≠ SIMPLET_OK) :
    simplet_map_is_valid map = SIMPLET_ERR := by
  unfold simplet_map_is_valid
  rw [if_pos h]

theorem set_srs_valid (env : Env) (map : simplet_map_t) (proj : String)
    (h : map.valid ≠ SIMPLET_OK) : (simplet_map_set_srs env map proj).1.valid ≠ SIMPLET_OK := by
  unfold simplet_map_set_srs
  split
  · split
    · exact h
    · simp [simplet_map_error]
  · simp [simplet_map_error]

theorem set_bounds_valid (env : Env) (map : simplet_map_t) (a b c d : ℚ)
    (h : map.valid ≠ SIMPLET_OK) :
    (simplet_map_set_bounds env map a b c d).1.valid ≠ SIMPLET_OK := by
  unfold simplet_map_set_bounds
  split
  · exact h
  · simp [simplet_map_error]

theorem set_slippy_valid (code : simplet_status_t → Nat) (env : Env) (map : simplet_map_t)
    (x y z : Nat) (h : map.valid ≠ SIMPLET_OK) :
    (simplet_map_set_slippy code env map x y z).1.valid ≠ SIMPLET_OK := by
  unfold simplet_map_set_slippy
  simp only
  split
  · simp [simplet_map_error]
  · split
    · simp [simplet_map_error]
    · apply set_bounds_valid
      apply set_srs_valid
      exact h

theorem build_surface_of_error (env : Env) (map : simplet_map_t)
    (h : map.valid ≠ SIMPLET_OK) : simplet_map_build_surface env map = (none, [], map) := by
  unfold simplet_map_build_surface
  rw [if_pos (is_valid_err_of_valid map h)]

theorem render_valid (env : Env) (map : simplet_map_t) (write_ok : Bool) (msg : String)
    (h : map.valid ≠ SIMPLET_OK) :
    (simplet_map_render_to_stream env map write_ok msg).valid ≠ SIMPLET_OK := by
  unfold simplet_map_render_to_stream
  rw [build_surface_of_error env map h]
  exact h

theorem render_png_valid (env : Env) (map : simplet_map_t) (path : String) (write_ok : Bool)
    (msg : String) (h : map.valid ≠ SIMPLET_OK) :
    (simplet_map_render_to_png env map path write_ok msg).valid ≠ SIMPLET_OK := by
  unfold simplet_map_render_to_png
  rw [build_surface_of_error env map h]
  exact h

theorem map_op_run_valid (code : simplet_status_t → Nat) (env : Env) (map : simplet_map_t)
    (op : map_op) (h : map.valid ≠ SIMPLET_OK) : (op.run code env map).valid ≠ SIMPLET_OK := by
  cases op with
  | set_srs proj => exact set_srs_valid env map proj h
  | set_size w hgt => exact h
  | set_bounds a b c d => exact set_bounds_valid env map a b c d h
  | set_slippy x y z => exact set_slippy_valid code env map x y z h
  | build_surface =>
    show (simplet_map_build_surface env map).2.2.valid ≠ SIMPLET_OK
    rw [build_surface_of_error env map h]
    exact h
  | close_surface => exact h
  | render_to_stream write_ok msg => exact render_valid env map write_ok msg h
  | render_to_png path write_ok msg => exact render_png_valid env map path write_ok msg h

/-- C12, as stated, fails: after a failed `simplet_map_set_srs` the valid
status is `SIMPLET_OGR_ERR`; a later `simplet_map_set_srs` call succeeds
(returns OK) and the valid status is still `SIMPLET_OGR_ERR`, not OK, so
`simplet_map_is_valid` still returns ERR. -/
theorem successful_call_keeps_error :
    map_failed_srs.valid = SIMPLET_OGR_ERR ∧
      (simplet_map_set_srs env_ok map_failed_srs "epsg:3857").2 = SIMPLET_OK ∧
      (simplet_map_set_srs env_ok map_failed_srs "epsg:3857").1.valid ≠ SIMPLET_OK ∧
      simplet_map_is_valid (simplet_map_set_srs env_ok map_failed_srs "epsg:3857").1 =
        SIMPLET_ERR := by
  refine ⟨rfl, rfl, by decide, by decide⟩

/-- C12, amended: once the valid status of a map is not OK, it is not OK
after any sequence of calls of the map functions (set_srs, set_size,
set_bounds, set_slippy, build_surface, close_surface, render_to_stream,
render_to_png), whatever each call returns, and `simplet_map_is_valid`
returns ERR after the sequence: no call resets the valid status. -/
theorem valid_status_sticky (code : simplet_status_t → Nat) (map : simplet_map_t)
    (ops : List (Env × map_op)) (h : map.valid ≠ SIMPLET_OK) :
    (run_ops code map ops).valid ≠ SIMPLET_OK ∧
      simplet_map_is_valid (run_ops code map ops) = SIMPLET_ERR := by
  induction ops generalizing map with
  | nil => exact ⟨h, is_valid_err_of_valid map h⟩
  | cons eo rest ih =>
    obtain ⟨env, op⟩ := eo
    unfold run_ops
    exact ih (op.run code env map) (map_op_run_valid code env map op h)

/-- C12 at a concrete input: the map `map_failed_srs` stays in error through
a successful projection call, a size call, a successful bounds call, a
successful slippy call and a render. -/
theorem valid_status_sticky_witness :
    map_failed_srs.valid ≠ SIMPLET_OK ∧
      simplet_map_is_valid
        (run_ops code_decl map_failed_srs
          [(env_ok, .set_srs "epsg:3857"), (env_ok, .set_size 256 256),
            (env_ok, .set_bounds 1 1 0 0), (env_ok, .set_slippy 0 0 0),
            (env_ok, .render_to_png "out.png" true "")]) = SIMPLET_ERR :=
  ⟨by decide, (valid_status_sticky code_decl map_failed_srs _ (by decide)).2⟩

/-! ## simplet_map_set_bounds -/

/-- C13: a `simplet_map_set_bounds(a, b, c, d)` call and a
`simplet_map_set_bounds(c, d, a, b)` call that both return OK, on any two
maps, leave the same bounds: northwest (min a c, max b d) and southeast
(max a c, min b d); the bounds held before play no part. -/
theorem set_bounds_symmetric (env1 env2 : Env) (map1 map2 : simplet_map_t) (a b c d : ℚ)
    (h1 : (simplet_map_set_bounds env1 map1 a b c d).2 = SIMPLET_OK)
    (h2 : (simplet_map_set_bounds env2 map2 c d a b).2 = SIMPLET_OK) :
    (simplet_map_set_bounds env1 map1 a b c d).1.bounds =
        some (.rect ⟨min a c, max b d⟩ ⟨max a c, min b d⟩) ∧
      (simplet_map_set_bounds env2 map2 c d a b).1.bounds =
        some (.rect ⟨min a c, max b d⟩ ⟨max a c, min b d⟩) := by
  unfold simplet_map_set_bounds at h1 h2 ⊢
  by_cases e1 : env1.simplet_bounds_new = true
  · by_cases e2 : env2.simplet_bounds_new = true
    · simp only [e1, e2, if_true, simplet_bounds_extend]
      refine ⟨trivial, ?_⟩
      rw [min_comm c a, max_comm d b, max_comm c a, min_comm d b]
    · simp [e2, simplet_map_error] at h2
  · simp [e1, simplet_map_error] at h1

/-- C13 at a concrete input: the corners (3, 1) and (0, 5), given in either
order to maps with different earlier bounds. -/
theorem set_bounds_symmetric_witness :
    (simplet_map_set_bounds env_ok simplet_map_new 3 1 0 5).2 = SIMPLET_OK ∧
      (simplet_map_set_bounds env_ok map_ready 0 5 3 1).2 = SIMPLET_OK ∧
      (simplet_map_set_bounds env_ok simplet_map_new 3 1 0 5).1.bounds =
        some (.rect ⟨min 3 0, max 1 5⟩ ⟨max 3 0, min 1 5⟩) ∧
      (simplet_map_set_bounds env_ok map_ready 0 5 3 1).1.bounds =
        some (.rect ⟨min 3 0, max 1 5⟩ ⟨max 3 0, min 1 5⟩) :=
  ⟨rfl, rfl, set_bounds_symmetric env_ok env_ok simplet_map_new map_ready 3 1 0 5 rfl rfl⟩

/-! ## simplet_raster_layer_process -/

/-- C15: `simplet_raster_layer_process` returns OK exactly when the source
opens and reports at least 4 bands, and then leaves the layer as it was; in
every other case it returns `SIMPLET_GDAL_ERR` and the layer's status is
`SIMPLET_GDAL_ERR` afterwards. -/
theorem raster_layer_process_status (GDALOpen : String → Option Int)
    (layer : simplet_raster_layer_t) :
    ((simplet_raster_layer_process GDALOpen layer).2 = SIMPLET_OK ↔
        ∃ count, GDALOpen layer.source = some count ∧ 4 ≤ count) ∧
      ((simplet_raster_layer_process GDALOpen layer).2 = SIMPLET_OK →
        (simplet_raster_layer_process GDALOpen layer).1 = layer) ∧
      ((simplet_raster_layer_process GDALOpen layer).2 ≠ SIMPLET_OK →
        (simplet_raster_layer_process GDALOpen layer).2 = SIMPLET_GDAL_ERR ∧
          (simplet_raster_layer_process GDALOpen layer).1.status = SIMPLET_GDAL_ERR) := by
  unfold simplet_raster_layer_process
  cases hopen : GDALOpen layer.source with
  | none => simp [set_error]
  | some count =>
    by_cases hc : count < 4
    · simp [hc, set_error]
    · simp [hc, set_error]
      omega

/-! ## Adjacent slippy tiles -/

theorem slippy_bounds_eq (code : simplet_status_t → Nat) (env : Env) (map : simplet_map_t)
    (x y z : Nat) (hx : x + 1 < 2 ^ 32) (hy : y + 1 < 2 ^ 32)
    (hb : env.simplet_bounds_new = true)
    (hret : (simplet_map_set_slippy code env map x y z).2 = SIMPLET_OK) :
    slippy_bounds code env map x y z =
      some (.rect
        ⟨(x : ℚ) * (SIMPLET_MERC_LENGTH / (2 : ℚ) ^ z) - SIMPLET_MERC_LENGTH / 2,
          SIMPLET_MERC_LENGTH / 2 - (y : ℚ) * (SIMPLET_MERC_LENGTH / (2 : ℚ) ^ z)⟩
        ⟨((x : ℚ) + 1) * (SIMPLET_MERC_LENGTH / (2 : ℚ) ^ z) - SIMPLET_MERC_LENGTH / 2,
          SIMPLET_MERC_LENGTH / 2
            - ((y : ℚ) + 1) * (SIMPLET_MERC_LENGTH / (2 : ℚ) ^ z)⟩) := by
  have hlen := merc_tile_length_pos z
  have hwe : (x : ℚ) * (SIMPLET_MERC_LENGTH / (2 : ℚ) ^ z) - SIMPLET_MERC_LENGTH / 2 ≤
      ((x : ℚ) + 1) * (SIMPLET_MERC_LENGTH / (2 : ℚ) ^ z) - SIMPLET_MERC_LENGTH / 2 := by
    nlinarith
  have hsn : SIMPLET_MERC_LENGTH / 2 - ((y : ℚ) + 1) * (SIMPLET_MERC_LENGTH / (2 : ℚ) ^ z) ≤
      SIMPLET_MERC_LENGTH / 2 - (y : ℚ) * (SIMPLET_MERC_LENGTH / (2 : ℚ) ^ z) := by
    nlinarith
  have hcx : ((uint_add x 1 : ℕ) : ℚ) = (x : ℚ) + 1 := by
    rw [uint_add_one x hx]; push_cast; ring
  have hcy : ((uint_add y 1 : ℕ) : ℚ) = (y : ℚ) + 1 := by
    rw [uint_add_one y hy]; push_cast; ring
  unfold slippy_bounds
  unfold simplet_map_set_slippy at hret ⊢
  simp only [hcx, hcy] at hret ⊢
  by_cases h1 : code (simplet_map_set_srs env
      (simplet_map_set_size map SIMPLET_SLIPPY_SIZE SIMPLET_SLIPPY_SIZE).1
      env.SIMPLET_MERCATOR).2 = 0
  · rw [if_pos h1] at hret
    simp [simplet_map_error] at hret
  · rw [if_neg h1] at hret ⊢
    rw [set_bounds_tile env _ hb _ _ _ _ hwe hsn] at hret ⊢
    by_cases h2 : code SIMPLET_OK = 0
    · simp [h2, simplet_map_error] at hret
    · simp only [h2, if_false]

theorem slippy_ok_everywhere :
    ∀ m x y z, (simplet_map_set_slippy code_decl env_ok m x y z).2 = SIMPLET_OK := by
  intro m x y z
  simp [simplet_map_set_slippy, simplet_map_set_srs, simplet_map_set_bounds, env_ok, code_decl]

/-- C14, as stated, fails: for x = 4294967294, y = 0 at zoom 32, x + 1 and
y + 1 are below 2 ^ z and both calls return OK, but in the call for tile
(x + 1, 0, 32) the `unsigned int` sum wraps to zero, so the west edge of that
tile is -L/2 and differs from the east edge of tile (x, 0, 32). -/
theorem slippy_neighbour_wraps :
    4294967294 + 1 < 2 ^ 32 ∧ 0 + 1 < 2 ^ 32 ∧
      (simplet_map_set_slippy code_decl env_ok simplet_map_new 4294967294 0 32).2
        = SIMPLET_OK ∧
      (simplet_map_set_slippy code_decl env_ok simplet_map_new (4294967294 + 1) 0 32).2
        = SIMPLET_OK ∧
      (slippy_bounds code_decl env_ok simplet_map_new 4294967294 0 32).bind
          simplet_bounds_t.east ≠
        (slippy_bounds code_decl env_ok simplet_map_new (4294967294 + 1) 0 32).bind
          simplet_bounds_t.west := by
  refine ⟨by norm_num, by norm_num, slippy_ok_everywhere _ _ _ _,
    slippy_ok_everywhere _ _ _ _, ?_⟩
  simp only [slippy_bounds, simplet_map_set_slippy, simplet_map_set_srs,
    simplet_map_set_bounds, env_ok, code_decl, simplet_map_set_size, simplet_bounds_extend,
    uint_add, SIMPLET_MERC_LENGTH]
  norm_num [simplet_bounds_t.east, simplet_bounds_t.west]

/-- C14, amended: when the bounds object is allocated and the calls return
OK, then for every zoom z and tile indices x, y with x + 2 and y + 2 below
2 ^ 32, the east edge of tile (x, y, z) is the west edge of tile (x + 1, y, z)
and the south edge of tile (x, y, z) is the north edge of tile (x, y + 1, z),
on whatever maps the calls are made. At z = 0 the tile is the square from
(-L/2, L/2) to (L/2, -L/2), and at z = 1 the four tiles are its four
quadrants, each of half its width and height, meeting at the origin. -/
theorem slippy_tiles_adjacent (code : simplet_status_t → Nat) (env : Env)
    (hb : env.simplet_bounds_new = true)
    (hret : ∀ m x y z, (simplet_map_set_slippy code env m x y z).2 = SIMPLET_OK)
    (m1 m2 m3 : simplet_map_t) (x y z : Nat) (hx : x + 2 < 2 ^ 32) (hy : y + 2 < 2 ^ 32) :
    ((slippy_bounds code env m1 x y z).bind simplet_bounds_t.east =
          (slippy_bounds code env m2 (x + 1) y z).bind simplet_bounds_t.west ∧
        (slippy_bounds code env m1 x y z).bind simplet_bounds_t.east ≠ none) ∧
      ((slippy_bounds code env m1 x y z).bind simplet_bounds_t.south =
          (slippy_bounds code env m3 x (y + 1) z).bind simplet_bounds_t.north ∧
        (slippy_bounds code env m1 x y z).bind simplet_bounds_t.south ≠ none) ∧
      slippy_bounds code env m1 0 0 0 =
        some (.rect ⟨-(SIMPLET_MERC_LENGTH / 2), SIMPLET_MERC_LENGTH / 2⟩
          ⟨SIMPLET_MERC_LENGTH / 2, -(SIMPLET_MERC_LENGTH / 2)⟩) ∧
      slippy_bounds code env m1 0 0 1 =
        some (.rect ⟨-(SIMPLET_MERC_LENGTH / 2), SIMPLET_MERC_LENGTH / 2⟩ ⟨0, 0⟩) ∧
      slippy_bounds code env m1 1 0 1 =
        some (.rect ⟨0, SIMPLET_MERC_LENGTH / 2⟩ ⟨SIMPLET_MERC_LENGTH / 2, 0⟩) ∧
      slippy_bounds code env m1 0 1 1 =
        some (.rect ⟨-(SIMPLET_MERC_LENGTH / 2), 0⟩ ⟨0, -(SIMPLET_MERC_LENGTH / 2)⟩) ∧
      slippy_bounds code env m1 1 1 1 =
        some (.rect ⟨0, 0⟩ ⟨SIMPLET_MERC_LENGTH / 2, -(SIMPLET_MERC_LENGTH / 2)⟩) := by
  have e1 := slippy_bounds_eq code env m1 x y z (by omega) (by omega) hb (hret _ _ _ _)
  have e2 := slippy_bounds_eq code env m2 (x + 1) y z (by omega) (by omega) hb (hret _ _ _ _)
  have e3 := slippy_bounds_eq code env m3 x (y + 1) z (by omega) (by omega) hb (hret _ _ _ _)
  have q0 := slippy_bounds_eq code env m1 0 0 0 (by norm_num) (by norm_num) hb (hret _ _ _ _)
  have q1 := slippy_bounds_eq code env m1 0 0 1 (by norm_num) (by norm_num) hb (hret _ _ _ _)
  have q2 := slippy_bounds_eq code env m1 1 0 1 (by norm_num) (by norm_num) hb (hret _ _ _ _)
  have q3 := slippy_bounds_eq code env m1 0 1 1 (by norm_num) (by norm_num) hb (hret _ _ _ _)
  have q4 := slippy_bounds_eq code env m1 1 1 1 (by norm_num) (by norm_num) hb (hret _ _ _ _)
  refine ⟨⟨?_, ?_⟩, ⟨?_, ?_⟩, ?_, ?_, ?_, ?_, ?_⟩
  · rw [e1, e2]
    simp [simplet_bounds_t.east, simplet_bounds_t.west]
  · rw [e1]
    simp [simplet_bounds_t.east]
  · rw [e1, e3]
    simp [simplet_bounds_t.south, simplet_bounds_t.north]
  · rw [e1]
    simp [simplet_bounds_t.south]
  · rw [q0]
    simp only [Option.some.injEq, simplet_bounds_t.rect.injEq, simplet_point_t.mk.injEq]
    refine ⟨⟨?_, ?_⟩, ?_, ?_⟩ <;> (push_cast; ring)
  · rw [q1]
    simp only [Option.some.injEq, simplet_bounds_t.rect.injEq, simplet_point_t.mk.injEq]
    refine ⟨⟨?_, ?_⟩, ?_, ?_⟩ <;> (push_cast; ring)
  · rw [q2]
    simp only [Option.some.injEq, simplet_bounds_t.rect.injEq, simplet_point_t.mk.injEq]
    refine ⟨⟨?_, ?_⟩, ?_, ?_⟩ <;> (push_cast; ring)
  · rw [q3]
    simp only [Option.some.injEq, simplet_bounds_t.rect.injEq, simplet_point_t.mk.injEq]
    refine ⟨⟨?_, ?_⟩, ?_, ?_⟩ <;> (push_cast; ring)
  · rw [q4]
    simp only [Option.some.injEq, simplet_bounds_t.rect.injEq, simplet_point_t.mk.injEq]
    refine ⟨⟨?_, ?_⟩, ?_, ?_⟩ <;> (push_cast; ring)

/-- C14 at a concrete input: at zoom 1 the east edge of tile (0, 0) and the
west edge of tile (1, 0) are both 0. -/
theorem slippy_tiles_adjacent_witness :
    (slippy_bounds code_decl env_ok simplet_map_new 0 0 1).bind simplet_bounds_t.east =
        (slippy_bounds code_decl env_ok map_ready (0 + 1) 0 1).bind simplet_bounds_t.west ∧
      (slippy_bounds code_decl env_ok simplet_map_new 0 0 1).bind simplet_bounds_t.east
        ≠ none :=
  (slippy_tiles_adjacent code_decl env_ok rfl slippy_ok_everywhere simplet_map_new map_ready
    map_ready 0 0 1 (by norm_num) (by norm_num)).1

/-! ## The simplification filter -/

theorem plot_vertex_fold_spec (ctx : cairo_t) (nw : simplet_point_t)
    (ps : List simplet_point_t) (anchor : simplet_point_t) (out : List cairo_cmd) :
    ∃ emitted final, spec_simplify ctx anchor ps emitted final ∧
      ps.foldl (plot_vertex_step ctx nw) (anchor, out) =
        (final, out ++ emitted.map (line_to_vertex nw)) := by
  induction ps generalizing anchor out with
  | nil => exact ⟨[], anchor, .done anchor, by simp⟩
  | cons p rest ih =>
    by_cases h : within_threshold ctx anchor p
    · obtain ⟨emitted, final, hs, hf⟩ := ih anchor out
      refine ⟨emitted, final, .skip anchor p rest emitted final h hs, ?_⟩
      rw [List.foldl_cons, plot_vertex_step_near ctx nw (anchor, out) p h]
      exact hf
    · obtain ⟨emitted, final, hs, hf⟩ := ih p (out ++ [line_to_vertex nw p])
      refine ⟨p :: emitted, final, .emit anchor p rest emitted final h hs, ?_⟩
      rw [List.foldl_cons, plot_vertex_step_far ctx nw (anchor, out) p h]
      simpa [line_to_vertex] using hf

theorem spec_simplify_sublist (ctx : cairo_t) (anchor final : simplet_point_t)
    (ps emitted : List simplet_point_t) (h : spec_simplify ctx anchor ps emitted final) :
    List.Sublist emitted ps := by
  induction h with
  | done a => exact List.Sublist.slnil
  | emit a p rest out f _ _ ih => exact List.Sublist.cons₂ p ih
  | skip a p rest out f _ _ ih => exact List.Sublist.cons p ih

theorem spec_simplify_chain (ctx : cairo_t) (anchor final : simplet_point_t)
    (ps emitted : List simplet_point_t) (h : spec_simplify ctx anchor ps emitted final) :
    List.Chain (fun a b => ¬ within_threshold ctx a b) anchor emitted := by
  induction h with
  | done a => exact List.Chain.nil
  | emit a p rest out f hfar _ ih => exact List.Chain.cons hfar ih
  | skip a p rest out f _ _ ih => exact ih

theorem line_tos_map_line_to_vertex (nw : simplet_point_t) (ps : List simplet_point_t) :
    line_tos (ps.map (line_to_vertex nw)) = ps.map (translate nw) := by
  induction ps with
  | nil => rfl
  | cons p rest ih => simp [line_to_vertex, line_tos, translate, ih]

/-- C16: for a sub-path with at least one vertex, the vertex loop of
`plot_path` follows the filter of the spec on the vertices before the final
one, started with the first vertex as anchor: a vertex at least one half
away from the anchor in either axis is emitted and becomes the anchor, a
vertex less than one half away in both axes is skipped and the anchor stays.
The `cairo_line_to` calls of the sub-path are the emitted vertices followed
by the final vertex, each translated to `(x - nw.x, nw.y - y)`; they are a
subsequence of the input vertices in input order, and each emitted vertex
fails the threshold test against the one emitted before it (the first one
against the first vertex). -/
theorem plot_path_ring_simplifies (ctx : cairo_t) (nw : simplet_point_t)
    (rule : simplet_rule_t) (cb : simplet_rule_t → List cairo_cmd)
    (points : List simplet_point_t) (hne : points ≠ [])
    (hcb : cb = finish_polygon ∨ cb = finish_linestring) :
    ∃ emitted final,
      spec_simplify ctx (points.head hne) points.dropLast emitted final ∧
      plot_path_loop ctx nw points = (final, emitted.map (line_to_vertex nw)) ∧
      line_tos (plot_path_ring ctx nw rule cb points) =
        (emitted ++ [points.getLast hne]).map (translate nw) ∧
      List.Sublist (emitted ++ [points.getLast hne]) points ∧
      List.Chain (fun a b => ¬ within_threshold ctx a b) (points.head hne) emitted := by
  have h0 : OGR_G_GetPoint points 0 = points.head hne := by
    cases points with
    | nil => exact absurd rfl hne
    | cons p rest => exact OGR_G_GetPoint_zero p rest
  obtain ⟨emitted, final, hs, hf⟩ :=
    plot_vertex_fold_spec ctx nw points.dropLast (points.head hne) []
  have hloop : plot_path_loop ctx nw points = (final, emitted.map (line_to_vertex nw)) := by
    rw [plot_path_loop_eq_foldl, h0, hf]
    simp
  have hcb0 : line_tos (cb rule) = [] := by
    rcases hcb with h | h <;> subst h
    · exact line_tos_finish_polygon rule
    · exact line_tos_finish_linestring rule
  refine ⟨emitted, final, hs, hloop, ?_, ?_, spec_simplify_chain ctx _ _ _ _ hs⟩
  · unfold plot_path_ring plot_path_build
    simp only [line_tos_append, line_tos_apply_styles, hcb0, hloop,
      OGR_G_GetPoint_last points hne, line_tos_map_line_to_vertex]
    simp [line_tos, translate]
  · have hsub := spec_simplify_sublist ctx _ _ _ _ hs
    have happ := List.Sublist.append hsub (List.Sublist.refl [points.getLast hne])
    rwa [List.dropLast_append_getLast hne] at happ

/-- C16 at a concrete input: in the sub-path `ring_far` = (0,0), (3,4),
(1,1) the first vertex is skipped against itself, (3,4) is emitted, and the
final vertex (1,1) follows. -/
theorem plot_path_ring_simplifies_witness :
    line_tos (plot_path_ring identity_ctx ⟨0, 0⟩ rule_stroke finish_linestring ring_far) =
      [(3, -4), (1, -1)] := by
  obtain ⟨emitted, final, hs, hloop, hl, -, -⟩ :=
    plot_path_ring_simplifies identity_ctx ⟨0, 0⟩ rule_stroke finish_linestring ring_far
      (by simp [ring_far]) (Or.inr rfl)
  have hcalc : plot_path_loop identity_ctx ⟨0, 0⟩ ring_far =
      (⟨3, 4⟩, [line_to_vertex ⟨0, 0⟩ ⟨3, 4⟩]) := by
    rw [plot_path_loop_eq_foldl]
    norm_num [ring_far, plot_vertex_step, identity_ctx, OGR_G_GetPoint, line_to_vertex,
      List.dropLast, abs_of_nonneg]
  rw [hcalc] at hloop
  have he : emitted = [⟨3, 4⟩] := by
    have h2 := (Prod.mk.inj hloop).2
    cases emitted with
    | nil => simp at h2
    | cons e rest =>
      cases rest with
      | nil =>
        simp only [List.map_cons, List.map_nil, List.cons.injEq, and_true, line_to_vertex,
          cairo_cmd.line_to.injEq] at h2
        obtain ⟨hx, hy⟩ := h2
        have ex : e.x = 3 := by linarith
        have ey : e.y = 4 := by linarith
        cases e
        simp_all
      | cons e2 rest2 => simp at h2
  rw [hl, he]
  norm_num [ring_far, translate]

/-! ## dispatch -/

/-- C17 on the code: for a line string without child geometries, whatever
its vertices and the rule, `dispatch` makes no call at all: `plot_path` only
loops over child geometries, of which there are none, so no path is built,
no line segment is emitted and the linestring finisher is not called. -/
theorem dispatch_plain_linestring (strtod : String → ℚ) (ctx : cairo_t)
    (nw : simplet_point_t) (rule : simplet_rule_t) (points : List simplet_point_t) :
    OGR_G_GetGeometryCount (.mk .wkbLineString points .nil) = 0 ∧
      dispatch strtod ctx nw rule (.mk .wkbLineString points .nil) = [] ∧
      line_tos (dispatch strtod ctx nw rule (.mk .wkbLineString points .nil)) = [] := by
  have h : dispatch strtod ctx nw rule (.mk .wkbLineString points .nil) = [] := by
    simp [dispatch, plot_path, plot_path_refs]
  exact ⟨rfl, h, by rw [h]; rfl⟩

theorem dispatch_refs_eq_flatMap (strtod : String → ℚ) (ctx : cairo_t)
    (nw : simplet_point_t) (rule : simplet_rule_t) :
    (children : OGRGeometryRefs) →
    dispatch_refs strtod ctx nw rule children =
      children.toList.flatMap (fun child =>
        match child with
        | none => []
        | some geom => dispatch strtod ctx nw rule geom)
  | .nil => by simp [dispatch_refs, OGRGeometryRefs.toList]
  | .null rest => by
    simp [dispatch_refs, OGRGeometryRefs.toList,
      dispatch_refs_eq_flatMap strtod ctx nw rule rest]
  | .ref geom rest => by
    simp [dispatch_refs, OGRGeometryRefs.toList,
      dispatch_refs_eq_flatMap strtod ctx nw rule rest]

/-- C18: for a geometry collection the trace of `dispatch` is the
concatenation, in child order, of the traces of `dispatch` on the children,
a `NULL` child contributing nothing; for a geometry of any type other than
polygon, multi-polygon, line string, multi-line-string, point, multi-point
and collection the trace is empty. `dispatch` is defined by structural
recursion on the geometry tree, so it gives a trace for every geometry. -/
theorem dispatch_collection (strtod : String → ℚ) (ctx : cairo_t) (nw : simplet_point_t)
    (rule : simplet_rule_t) :
    (∀ points children,
        dispatch strtod ctx nw rule (.mk .wkbGeometryCollection points children) =
          children.toList.flatMap (fun child =>
            match child with
            | none => []
            | some geom => dispatch strtod ctx nw rule geom)) ∧
      (∀ code points children,
        dispatch strtod ctx nw rule (.mk (.other code) points children) = []) := by
  constructor
  · intro points children
    rw [← dispatch_refs_eq_flatMap]
    simp [dispatch]
  · intro code points children
    simp [dispatch]

/-! ## Save and restore -/

theorem save_depth_append (a b : List cairo_cmd) (d : Nat) :
    save_depth d (a ++ b) = (save_depth d a).bind (fun d1 => save_depth d1 b) := by
  induction a generalizing d with
  | nil => simp [save_depth]
  | cons c rest ih =>
    cases c <;> simp only [List.cons_append, save_depth] <;> split <;> simp [ih]

theorem save_depth_plain (cmds : List cairo_cmd) (h : no_save_restore cmds) :
    save_depth 1 cmds = some 1 := by
  induction cmds with
  | nil => rfl
  | cons c rest ih =>
    have hc := h c (List.mem_cons_self c rest)
    have hr := ih (fun x hx => h x (List.mem_cons_of_mem c hx))
    cases c <;> simp_all [save_depth]

theorem save_depth_counts (cmds : List cairo_cmd) (d d1 : Nat)
    (h : save_depth d cmds = some d1) :
    cmds.count .save + d = cmds.count .restore + d1 := by
  induction cmds generalizing d with
  | nil =>
    simp only [save_depth, Option.some.injEq] at h
    simp [h]
  | cons c rest ih =>
    cases c <;> simp only [save_depth] at h <;> split at h <;>
      first
      | exact absurd h (by simp)
      | (have h2 := ih _ h
         simp only [List.count_cons, beq_iff_eq, reduceCtorEq, if_false, if_true] at h2 ⊢
         omega)

theorem save_depth_take (cmds : List cairo_cmd) (d d1 : Nat) (n : Nat)
    (h : save_depth d cmds = some d1) : ∃ d2, save_depth d (cmds.take n) = some d2 := by
  have e : save_depth d (cmds.take n ++ cmds.drop n) = some d1 := by
    rw [List.take_append_drop]; exact h
  rw [save_depth_append] at e
  cases hd : save_depth d (cmds.take n) with
  | none => rw [hd] at e; simp at e
  | some d2 => exact ⟨d2, rfl⟩

theorem no_save_restore_append (a b : List cairo_cmd) (ha : no_save_restore a)
    (hb : no_save_restore b) : no_save_restore (a ++ b) := by
  intro c hc
  rcases List.mem_append.mp hc with h | h
  · exact ha c h
  · exact hb c h

theorem no_save_restore_apply_styles (styles : List simplet_style_t) (keys : List String) :
    no_save_restore (simplet_apply_styles styles keys) := by
  induction keys with
  | nil => intro c hc; simp [simplet_apply_styles] at hc
  | cons k rest ih =>
    unfold simplet_apply_styles
    cases lookup_styledef k with
    | none => exact ih
    | some d =>
      cases simplet_lookup_style styles k with
      | none => exact ih
      | some st =>
        intro c hc
        rcases List.mem_cons.mp hc with h | h
        · subst h; simp
        · exact ih c h

theorem no_save_restore_finish_polygon (rule : simplet_rule_t) :
    no_save_restore (finish_polygon rule) := by
  intro c hc
  unfold finish_polygon at hc
  rcases List.mem_cons.mp hc with h | h
  · subst h; simp
  · exact no_save_restore_apply_styles _ _ c h

theorem no_save_restore_finish_linestring (rule : simplet_rule_t) :
    no_save_restore (finish_linestring rule) :=
  no_save_restore_apply_styles _ _

theorem no_save_restore_finish_point (rule : simplet_rule_t) :
    no_save_restore (finish_point rule) := by
  intro c hc
  unfold finish_point at hc
  rcases List.mem_cons.mp hc with h | h
  · subst h; simp
  · exact no_save_restore_apply_styles _ _ c h

theorem no_save_restore_loop (ctx : cairo_t) (nw : simplet_point_t)
    (points : List simplet_point_t) : no_save_restore (plot_path_loop ctx nw points).2 := by
  obtain ⟨emitted, final, _, hf⟩ :=
    plot_vertex_fold_spec ctx nw points.dropLast (OGR_G_GetPoint points 0) []
  rw [plot_path_loop_eq_foldl, hf]
  intro c hc
  simp only [List.nil_append, List.mem_map] at hc
  obtain ⟨p, _, hp⟩ := hc
  subst hp
  simp [line_to_vertex]

theorem plot_path_ring_save_depth (ctx : cairo_t) (nw : simplet_point_t)
    (rule : simplet_rule_t) (cb : simplet_rule_t → List cairo_cmd)
    (hcb : no_save_restore (cb rule)) (points : List simplet_point_t) :
    save_depth 0 (plot_path_ring ctx nw rule cb points) = some 0 := by
  have hin : no_save_restore
      ([cairo_cmd.move_to ((OGR_G_GetPoint points 0).x - nw.x)
            (nw.y - (OGR_G_GetPoint points 0).y), cairo_cmd.new_path]
        ++ (plot_path_loop ctx nw points).2
        ++ [cairo_cmd.line_to ((OGR_G_GetPoint points ((points.length : Int) - 1)).x - nw.x)
            (nw.y - (OGR_G_GetPoint points ((points.length : Int) - 1)).y)]
        ++ simplet_apply_styles rule.styles ["line-join", "line-cap"]
        ++ cb rule ++ [cairo_cmd.close_path, cairo_cmd.clip]) := by
    repeat' apply no_save_restore_append
    · intro c hc; simp at hc; rcases hc with h | h <;> subst h <;> simp
    · exact no_save_restore_loop ctx nw points
    · intro c hc; simp at hc; subst hc; simp
    · exact no_save_restore_apply_styles _ _
    · exact hcb
    · intro c hc; simp at hc; rcases hc with h | h <;> subst h <;> simp
  have e : plot_path_ring ctx nw rule cb points =
      cairo_cmd.save ::
        (([cairo_cmd.move_to ((OGR_G_GetPoint points 0).x - nw.x)
            (nw.y - (OGR_G_GetPoint points 0).y), cairo_cmd.new_path]
        ++ (plot_path_loop ctx nw points).2
        ++ [cairo_cmd.line_to ((OGR_G_GetPoint points ((points.length : Int) - 1)).x - nw.x)
            (nw.y - (OGR_G_GetPoint points ((points.length : Int) - 1)).y)]
        ++ simplet_apply_styles rule.styles ["line-join", "line-cap"]
        ++ cb rule ++ [cairo_cmd.close_path, cairo_cmd.clip]) ++ [cairo_cmd.restore]) := by
    simp [plot_path_ring, plot_path_build]
  rw [e, save_depth, if_pos rfl, save_depth_append, save_depth_plain _ hin]
  simp [save_depth]

theorem plot_point_save_depth (strtod : String → ℚ) (ctx : cairo_t) (nw : simplet_point_t)
    (rule : simplet_rule_t) (geom : OGRGeometryH) :
    save_depth 0 (plot_point strtod ctx nw rule finish_point geom) = some 0 := by
  unfold plot_point
  cases hs : simplet_lookup_style rule.styles "radius" with
  | none => rfl
  | some style =>
    have hin : no_save_restore
        (geom.points.map (fun p =>
            cairo_cmd.arc (p.x - nw.x) (nw.y - p.y)
              (ctx.device_to_user_distance (strtod style.arg, 0)).1 0 2)
          ++ simplet_apply_styles rule.styles ["line-join", "line-cap"]
          ++ finish_point rule ++ [cairo_cmd.clip]) := by
      repeat' apply no_save_restore_append
      · intro c hc
        simp only [List.mem_map] at hc
        obtain ⟨p, _, hp⟩ := hc
        subst hp
        simp
      · exact no_save_restore_apply_styles _ _
      · exact no_save_restore_finish_point rule
      · intro c hc; simp at hc; subst hc; simp
    have e : [cairo_cmd.save]
          ++ geom.points.map (fun p =>
            cairo_cmd.arc (p.x - nw.x) (nw.y - p.y)
              (ctx.device_to_user_distance (strtod style.arg, 0)).1 0 2)
          ++ simplet_apply_styles rule.styles ["line-join", "line-cap"]
          ++ finish_point rule ++ [cairo_cmd.clip, cairo_cmd.restore] =
        cairo_cmd.save ::
          ((geom.points.map (fun p =>
            cairo_cmd.arc (p.x - nw.x) (nw.y - p.y)
              (ctx.device_to_user_distance (strtod style.arg, 0)).1 0 2)
          ++ simplet_apply_styles rule.styles ["line-join", "line-cap"]
          ++ finish_point rule ++ [cairo_cmd.clip]) ++ [cairo_cmd.restore]) := by
      simp
    simp only []
    rw [e, save_depth, if_pos rfl, save_depth_append, save_depth_plain _ hin]
    simp [save_depth]

mutual
theorem plot_path_save_depth (ctx : cairo_t) (nw : simplet_point_t) (rule : simplet_rule_t)
    (cb : simplet_rule_t → List cairo_cmd) (hcb : no_save_restore (cb rule)) :
    (geom : OGRGeometryH) → save_depth 0 (plot_path ctx nw rule cb geom) = some 0
  | .mk _ _ children => by
    rw [plot_path]
    exact plot_path_refs_save_depth ctx nw rule cb hcb children
theorem plot_path_refs_save_depth (ctx : cairo_t) (nw : simplet_point_t)
    (rule : simplet_rule_t) (cb : simplet_rule_t → List cairo_cmd)
    (hcb : no_save_restore (cb rule)) :
    (refs : OGRGeometryRefs) → save_depth 0 (plot_path_refs ctx nw rule cb refs) = some 0
  | .nil => by simp [plot_path_refs, save_depth]
  | .null rest => by
    rw [plot_path_refs]
    exact plot_path_refs_save_depth ctx nw rule cb hcb rest
  | .ref subgeom rest => by
    rw [plot_path_refs, save_depth_append]
    have hrest := plot_path_refs_save_depth ctx nw rule cb hcb rest
    by_cases hc : OGR_G_GetGeometryCount subgeom > 0
    · rw [if_pos hc, plot_path_save_depth ctx nw rule cb hcb subgeom]
      simpa using hrest
    · rw [if_neg hc, plot_path_ring_save_depth ctx nw rule cb hcb]
      simpa using hrest
end

mutual
theorem dispatch_save_depth (strtod : String → ℚ) (ctx : cairo_t) (nw : simplet_point_t)
    (rule : simplet_rule_t) :
    (geom : OGRGeometryH) → save_depth 0 (dispatch strtod ctx nw rule geom) = some 0
  | .mk type points children => by
    cases type with
    | wkbPoint => simp only [dispatch]; exact plot_point_save_depth _ _ _ _ _
    | wkbLineString =>
      simp only [dispatch]
      exact plot_path_save_depth _ _ _ _ (no_save_restore_finish_linestring rule) _
    | wkbPolygon =>
      simp only [dispatch]
      exact plot_path_save_depth _ _ _ _ (no_save_restore_finish_polygon rule) _
    | wkbMultiPoint => simp only [dispatch]; exact plot_point_save_depth _ _ _ _ _
    | wkbMultiLineString =>
      simp only [dispatch]
      exact plot_path_save_depth _ _ _ _ (no_save_restore_finish_linestring rule) _
    | wkbMultiPolygon =>
      simp only [dispatch]
      exact plot_path_save_depth _ _ _ _ (no_save_restore_finish_polygon rule) _
    | wkbGeometryCollection =>
      simp only [dispatch]
      exact dispatch_refs_save_depth strtod ctx nw rule children
    | other code => simp [dispatch, save_depth]
theorem dispatch_refs_save_depth (strtod : String → ℚ) (ctx : cairo_t)
    (nw : simplet_point_t) (rule : simplet_rule_t) :
    (refs : OGRGeometryRefs) → save_depth 0 (dispatch_refs strtod ctx nw rule refs) = some 0
  | .nil => by simp [dispatch_refs, save_depth]
  | .null rest => by
    rw [dispatch_refs]
    exact dispatch_refs_save_depth strtod ctx nw rule rest
  | .ref geom rest => by
    rw [dispatch_refs, save_depth_append, dispatch_save_depth strtod ctx nw rule geom]
    simpa using dispatch_refs_save_depth strtod ctx nw rule rest
end

/-- C19: for every geometry and rule the trace of `dispatch` is well
bracketed: started at save depth 0 it ends at save depth 0, `cairo_save` is
only called at depth 0 (no nesting), and every other call - path building,
style verbs, clip, close - is made at depth 1, between a save and its
restore. Hence every prefix of the trace has at least as many saves as
restores and the whole trace has equally many. -/
theorem dispatch_save_restore_balanced (strtod : String → ℚ) (ctx : cairo_t)
    (nw : simplet_point_t) (rule : simplet_rule_t) (geom : OGRGeometryH) :
    save_depth 0 (dispatch strtod ctx nw rule geom) = some 0 ∧
      (∀ n, ((dispatch strtod ctx nw rule geom).take n).count .restore ≤
        ((dispatch strtod ctx nw rule geom).take n).count .save) ∧
      (dispatch strtod ctx nw rule geom).count .save =
        (dispatch strtod ctx nw rule geom).count .restore := by
  have h := dispatch_save_depth strtod ctx nw rule geom
  refine ⟨h, ?_, ?_⟩
  · intro n
    obtain ⟨d2, h2⟩ := save_depth_take _ 0 0 n h
    have hc := save_depth_counts _ 0 d2 h2
    omega
  · have hc := save_depth_counts _ 0 0 h
    omega

/-! ## Vertex reads -/

mutual
theorem plot_path_eq_leaves (ctx : cairo_t) (nw : simplet_point_t) (rule : simplet_rule_t)
    (cb : simplet_rule_t → List cairo_cmd) :
    (geom : OGRGeometryH) →
    plot_path ctx nw rule cb geom =
      (plot_path_leaves geom).flatMap (plot_path_ring ctx nw rule cb)
  | .mk _ _ children => by
    rw [plot_path, plot_path_leaves]
    exact plot_path_refs_eq_leaves ctx nw rule cb children
theorem plot_path_refs_eq_leaves (ctx : cairo_t) (nw : simplet_point_t)
    (rule : simplet_rule_t) (cb : simplet_rule_t → List cairo_cmd) :
    (refs : OGRGeometryRefs) →
    plot_path_refs ctx nw rule cb refs =
      (plot_path_refs_leaves refs).flatMap (plot_path_ring ctx nw rule cb)
  | .nil => by simp [plot_path_refs, plot_path_refs_leaves]
  | .null rest => by
    rw [plot_path_refs, plot_path_refs_leaves]
    exact plot_path_refs_eq_leaves ctx nw rule cb rest
  | .ref subgeom rest => by
    rw [plot_path_refs, plot_path_refs_leaves, List.flatMap_append,
      plot_path_refs_eq_leaves ctx nw rule cb rest]
    by_cases hc : OGR_G_GetGeometryCount subgeom > 0
    · rw [if_pos hc, if_pos hc, plot_path_eq_leaves ctx nw rule cb subgeom]
    · rw [if_neg hc, if_neg hc]
      simp
end

theorem plot_path_reads_range (count : Nat) (h : 0 < count) :
    ∀ i ∈ plot_path_reads count, 0 ≤ i ∧ i < (count : Int) := by
  intro i hi
  unfold plot_path_reads at hi
  simp only [List.mem_append, List.mem_singleton, List.mem_map, List.mem_range] at hi
  rcases hi with (hi | ⟨j, hj, hji⟩) | hi
  · subst hi; omega
  · subst hji; omega
  · subst hi; omega

/-- C20: `plot_path` draws the sub-paths `plot_path_leaves` lists, and for
each it reads the vertex indices 0, then 0 up to count - 2, then count - 1.
When every sub-path reached has at least one vertex, every index read lies
in the range from 0 up to, not including, the vertex count of its sub-path.
For a sub-path without vertices the indices read are 0 and -1, and neither
lies in the empty range. -/
theorem plot_path_reads_in_range (ctx : cairo_t) (nw : simplet_point_t)
    (rule : simplet_rule_t) (cb : simplet_rule_t → List cairo_cmd) (geom : OGRGeometryH)
    (h : ∀ pts ∈ plot_path_leaves geom, pts ≠ []) :
    plot_path ctx nw rule cb geom =
        (plot_path_leaves geom).flatMap (plot_path_ring ctx nw rule cb) ∧
      (∀ pts ∈ plot_path_leaves geom, ∀ i ∈ plot_path_reads pts.length,
        0 ≤ i ∧ i < (pts.length : Int)) ∧
      plot_path_reads 0 = [0, -1] ∧
      (∀ i ∈ plot_path_reads 0, ¬ (0 ≤ i ∧ i < ((0 : Nat) : Int))) := by
  refine ⟨plot_path_eq_leaves ctx nw rule cb geom, ?_, by decide, ?_⟩
  · intro pts hpts
    exact plot_path_reads_range pts.length (List.length_pos.mpr (h pts hpts))
  · intro i _ hi
    omega

/-- C20 at a concrete input: the ring of the polygon `geom_polygon` has four
vertices, the indices read for it are 0, 0, 1, 2, 3, and the last of them
lies in the range of the ring. -/
theorem plot_path_reads_in_range_witness :
    plot_path_leaves geom_polygon = [[⟨0, 0⟩, ⟨4, 0⟩, ⟨4, 4⟩, ⟨0, 0⟩]] ∧
      plot_path_reads 4 = [0, 0, 1, 2, 3] ∧
      ((0 : Int) ≤ 3 ∧
        (3 : Int) < (([⟨0, 0⟩, ⟨4, 0⟩, ⟨4, 4⟩, ⟨0, 0⟩] : List simplet_point_t).length : Int)) := by
  have hl : plot_path_leaves geom_polygon = [[⟨0, 0⟩, ⟨4, 0⟩, ⟨4, 4⟩, ⟨0, 0⟩]] := by
    simp [geom_polygon, plot_path_leaves, plot_path_refs_leaves, OGR_G_GetGeometryCount,
      OGRGeometryRefs.count, OGRGeometryH.points]
  refine ⟨hl, by decide, ?_⟩
  exact (plot_path_reads_in_range identity_ctx ⟨0, 0⟩ rule_stroke finish_polygon geom_polygon
    (by rw [hl]; simp)).2.1 [⟨0, 0⟩, ⟨4, 0⟩, ⟨4, 4⟩, ⟨0, 0⟩] (by rw [hl]; simp) 3 (by decide)

/-! ## Multi-points -/

/-- C6 on the code: for a multi-point, which has no vertex of its own and
holds its points as child geometries, and a rule whose first style with key
`radius` is `st`, `dispatch` saves, applies the styles and the point
finisher, clips and restores, and makes no `cairo_arc` call at all, however
many points the children hold: `plot_point` loops over the vertices of the
geometry itself and never visits the children. -/
theorem dispatch_multipoint_no_arc (strtod : String → ℚ) (ctx : cairo_t)
    (nw : simplet_point_t) (rule : simplet_rule_t) (children : OGRGeometryRefs)
    (st : simplet_style_t)
    (hst : rule.styles.find? (fun s => decide (s.key = "radius")) = some st) :
    dispatch strtod ctx nw rule (.mk .wkbMultiPoint [] children) =
        [cairo_cmd.save]
          ++ simplet_apply_styles rule.styles ["line-join", "line-cap"]
          ++ finish_point rule
          ++ [cairo_cmd.clip, cairo_cmd.restore] ∧
      arcs (dispatch strtod ctx nw rule (.mk .wkbMultiPoint [] children)) = [] := by
  have hd : dispatch strtod ctx nw rule (.mk .wkbMultiPoint [] children) =
      [cairo_cmd.save]
        ++ simplet_apply_styles rule.styles ["line-join", "line-cap"]
        ++ finish_point rule
        ++ [cairo_cmd.clip, cairo_cmd.restore] := by
    simp only [dispatch]
    unfold plot_point
    rw [lookup_style_eq_find, hst]
    simp [OGRGeometryH.points]
  refine ⟨hd, ?_⟩
  rw [hd]
  simp [arcs_append, arcs_apply_styles, arcs, finish_point]

/-- C6 at a concrete input: the multi-point `geom_multipoint` holds the two
points (1, 1) and (2, 2), the rule `rule_radius` has a `radius` style, and
`dispatch` makes no arc. -/
theorem dispatch_multipoint_no_arc_witness :
    (OGRGeometryRefs.ref (.mk .wkbPoint [⟨1, 1⟩] .nil)
        (.ref (.mk .wkbPoint [⟨2, 2⟩] .nil) .nil)).member_points = [⟨1, 1⟩, ⟨2, 2⟩] ∧
      rule_radius.styles.find? (fun s => decide (s.key = "radius")) = some ⟨"radius", "3"⟩ ∧
      arcs (dispatch (fun _ => 3) identity_ctx ⟨0, 100⟩ rule_radius geom_multipoint) = [] :=
  ⟨rfl, by decide,
    (dispatch_multipoint_no_arc (fun _ => 3) identity_ctx ⟨0, 100⟩ rule_radius _
      ⟨"radius", "3"⟩ (by decide)).2⟩

/-! ## Surface creation -/

theorem build_surface_no_surface (env : Env) (map : simplet_map_t)
    (h : env.cairo_image_surface_create map.width map.height = false) :
    simplet_map_build_surface env map = (none, [], map) := by
  unfold simplet_map_build_surface
  by_cases hv : simplet_map_is_valid map = SIMPLET_ERR
  · rw [if_pos hv]
  · rw [if_neg hv]
    simp [h]

end SimpleTiles
